import Mathlib

/-!
Shallow embedding of the K8sResourceResizer recommendation engine
(Src/severity.py, Src/resource_optimizer.py, Src/utils.py,
Src/strategy/*.py) over exact real arithmetic, together with theorems
settling the frozen specification claims.

Modelling conventions:
* Python floats are modelled as real numbers (`ℝ`); `math.exp` and the
  square root inside `statistics.stdev` become `Real.exp` / `Real.sqrt`.
* A Python value that may be `None` is an `Option`.
* A Python function that can raise is an `Except String` computation;
  `try/except` blocks become `match` on the `Except` value.
* Calls into opaque third-party model-fitting libraries (statsmodels
  `QuantReg`, `pmdarima.auto_arima`, `prophet.Prophet`, `scipy.stats.t.ppf`,
  pandas time-zone conversion) are passed in as explicit oracle arguments,
  so every theorem quantifies over all possible library behaviours.
-/

namespace KRR

/-- `Severity` from severity.py. -/
inductive Severity where
  | CRITICAL
  | WARNING
  | OK
  | GOOD
deriving DecidableEq

/-- `RecommendationConfig` from strategy/__init__.py (the fields the engine
reads; the strategy selector enum is irrelevant to the embedded functions). -/
structure RecommendationConfig where
  cpuPercentile : ℝ := 95.0
  memoryBuffer : ℝ := 1.15
  minCpuCores : ℝ := 0.01
  minMemoryBytes : ℝ := 100 * 1024 * 1024
  businessHoursStart : ℤ := 9
  businessHoursEnd : ℤ := 17
  businessDays : List ℤ := [0, 1, 2, 3, 4]
  trendThreshold : ℝ := 0.1
  highVarianceThreshold : ℝ := 0.5
  historyWindowHours : ℤ := 24

/-- The dataclass defaults of `RecommendationConfig`. -/
def defaultConfig : RecommendationConfig := {}

/-- `ResourceOptimizer._determine_severity` (resource_optimizer.py 121-136). -/
noncomputable def determineSeverity (current recommended : Option ℝ) : Severity :=
  match current, recommended with
  | none, none => .GOOD
  | none, some _ => .WARNING
  | some _, none => .WARNING
  | some c, some r =>
    if 0.5 ≤ |c - r| / c then .CRITICAL
    else if 0.25 ≤ |c - r| / c then .WARNING
    else if 0.1 ≤ |c - r| / c then .OK
    else .GOOD

/-- `ResourceOptimizer._validate_cpu_request` (resource_optimizer.py 138-145):
clamp to [0.01, 64.0] cores. -/
noncomputable def validateCpuRequest (cpuCores : ℝ) : ℝ :=
  max 0.01 (min cpuCores 64.0)

/-- `ResourceOptimizer._validate_memory_request` (resource_optimizer.py 147-154):
clamp to [32MiB, 256GiB]. -/
noncomputable def validateMemoryRequest (memoryBytes : ℝ) : ℝ :=
  max (32 * 1024 * 1024) (min memoryBytes (256 * 1024 * 1024 * 1024))

/-- `ResourceOptimizer._calculate_cpu_limit` (resource_optimizer.py 156-168):
tiered multiplier on the request, re-clamped to the CPU bounds. -/
noncomputable def calculateCpuLimit (cpuRequest : ℝ) : ℝ :=
  validateCpuRequest
    (if cpuRequest < 0.1 then cpuRequest * 3.0
     else if cpuRequest < 1.0 then cpuRequest * 2.5
     else cpuRequest * 2.0)

/-- `ResourceOptimizer._calculate_memory_limit` (resource_optimizer.py 170-180):
tiered multiplier on the request, re-clamped to the memory bounds. -/
noncomputable def calculateMemoryLimit (memoryRequest : ℝ) : ℝ :=
  validateMemoryRequest
    (if memoryRequest < 256 * 1024 * 1024 then memoryRequest * 1.5
     else memoryRequest * 1.3)

/-- One `{'value': ..., 'severity': ...}` leaf of a recommendation record. -/
structure Prediction where
  value : ℝ
  severity : Severity

/-- The `'recommended'` block the orchestrator assembles per container
(resource_optimizer.py 240-262). -/
structure RecommendedBlock where
  requestsCpu : Prediction
  requestsMemory : Prediction
  limitsCpu : Prediction
  limitsMemory : Prediction

/-- The per-container body of `generate_recommendations`
(resource_optimizer.py 215-262): validate the raw strategy outputs, derive
limits, and attach severities, each computed as
`_determine_severity(None, value)`. -/
noncomputable def assembleRecommendation (rawCpu rawMemory : ℝ) : RecommendedBlock :=
  let cpuRequest := validateCpuRequest rawCpu
  let memoryRequest := validateMemoryRequest rawMemory
  let cpuLimit := calculateCpuLimit cpuRequest
  let memoryLimit := calculateMemoryLimit memoryRequest
  { requestsCpu := ⟨cpuRequest, determineSeverity none (some cpuRequest)⟩
    requestsMemory := ⟨memoryRequest, determineSeverity none (some memoryRequest)⟩
    limitsCpu := ⟨cpuLimit, determineSeverity none (some cpuLimit)⟩
    limitsMemory := ⟨memoryLimit, determineSeverity none (some memoryLimit)⟩ }

/-- `handle_exceptions` from utils.py 74-90: logs the exception and
re-raises it, so on the `Except` model it is the identity. -/
def handleExceptions {α : Type} (r : Except String α) : Except String α :=
  match r with
  | .ok b => .ok b
  | .error e => .error e

/-- The per-container loop of `generate_recommendations`
(resource_optimizer.py 192-262).  Each container's usage retrieval and
strategy evaluation may raise; the loop body has no `try/except`, so the
first exception aborts the whole traversal and the partially built
dictionary is discarded. -/
noncomputable def generateRecommendationsLoop :
    List (String × Except String (ℝ × ℝ)) →
    Except String (List (String × RecommendedBlock))
  | [] => .ok []
  | (key, usage) :: rest => do
    let (rawCpu, rawMemory) ← usage
    let others ← generateRecommendationsLoop rest
    return (key, assembleRecommendation rawCpu rawMemory) :: others

/-- `generate_recommendations` (resource_optimizer.py 182-265): the loop,
wrapped by the `@handle_exceptions` decorator which re-raises. -/
noncomputable def generateRecommendations
    (containers : List (String × Except String (ℝ × ℝ))) :
    Except String (List (String × RecommendedBlock)) :=
  handleExceptions (generateRecommendationsLoop containers)

/-- Modelled from the spec: the batch behaviour §7 prescribes for the
orchestrator — catch-and-skip per container, returning the successful
records together with a `(key, reason)` list of failures.  No function in
resource_optimizer.py implements this; it is stated here only to be
compared with `generateRecommendations`. -/
noncomputable def generateRecommendationsSpec
    (containers : List (String × Except String (ℝ × ℝ))) :
    List (String × RecommendedBlock) × List (String × String) :=
  containers.foldr
    (fun (c : String × Except String (ℝ × ℝ)) acc =>
      match c.2 with
      | .ok (rawCpu, rawMemory) =>
          ((c.1, assembleRecommendation rawCpu rawMemory) :: acc.1, acc.2)
      | .error e => (acc.1, (c.1, e) :: acc.2))
    ([], [])

/-! ### strategy/basic_strategy.py: the decaying histogram -/

/-- Python list slice `xs[-n:]`: the last `n` elements. -/
def lastN {α : Type} (n : ℕ) (xs : List α) : List α :=
  xs.drop (xs.length - n)

/-- `statistics.mean` (call sites below only apply it to non-empty lists). -/
noncomputable def pyMean (xs : List ℝ) : ℝ := xs.sum / xs.length

/-- The value `statistics.stdev` computes on two or more data points:
the square root of the sample variance. -/
noncomputable def pyStdev (xs : List ℝ) : ℝ :=
  Real.sqrt ((xs.map (fun x => (x - pyMean xs) ^ 2)).sum / ((xs.length : ℝ) - 1))

/-- `statistics.stdev`, including the `StatisticsError` it raises on fewer
than two data points. -/
noncomputable def pyStdevE (xs : List ℝ) : Except String ℝ :=
  if xs.length < 2 then .error "stdev requires at least two data points"
  else .ok (pyStdev xs)

/-- The `Sample` dataclass of basic_strategy.py. -/
structure Sample where
  value : ℝ
  timestamp : ℝ
  weight : ℝ
  importance : ℝ

/-- The state of a `DecayingHistogram` (basic_strategy.py 16-32):
`max_samples`, the current `decay_rate`, and the `deque(maxlen=max_samples)`
of samples.  The `_volatility_window = 100` and `_min_importance = 0.1`
constants are inlined below (`_min_importance` is never read by the code). -/
structure DecayingHistogram where
  maxSamples : ℕ
  decayRate : ℝ
  samples : List Sample

/-- `DecayingHistogram.__init__`. -/
def DecayingHistogram.init (maxSamples : ℕ) (initialDecayRate : ℝ) :
    DecayingHistogram :=
  ⟨maxSamples, initialDecayRate, []⟩

/-- `DecayingHistogram._calculate_volatility` (basic_strategy.py 34-43). -/
noncomputable def calculateVolatility (h : DecayingHistogram) : ℝ :=
  if h.samples.length < 2 then 0.0
  else
    let recentSamples := lastN 100 (h.samples.map Sample.value)
    if recentSamples.length < 2 then 0.0
    else if 0 < pyMean recentSamples then pyStdev recentSamples / pyMean recentSamples
    else 0.0

/-- `DecayingHistogram._update_decay_rate` (basic_strategy.py 45-49): the
new decay rate (the Python method assigns it to `self.decay_rate`). -/
noncomputable def updateDecayRate (h : DecayingHistogram) : ℝ :=
  min 0.5 (max 0.01 (calculateVolatility h * 2))

/-- `DecayingHistogram._calculate_importance` (basic_strategy.py 51-63).
The `timestamp` argument is unused, as in the source. -/
noncomputable def calculateImportance (h : DecayingHistogram)
    (value timestamp : ℝ) : ℝ :=
  if h.samples.isEmpty then 1.0
  else
    let recentValues := lastN 10 (h.samples.map Sample.value)
    if recentValues.isEmpty then 1.0
    else
      let recentMean := pyMean recentValues
      let deviation := if 0 < recentMean then |value - recentMean| / recentMean else 0.0
      min 1.0 (max 0.1 (deviation * 2))

/-- Appending to a `collections.deque(maxlen=cap)`: when full, elements are
discarded from the opposite (oldest) end. -/
def dequeAppend {α : Type} (cap : ℕ) (xs : List α) (x : α) : List α :=
  if xs.length + 1 ≤ cap then xs ++ [x]
  else (xs ++ [x]).drop (xs.length + 1 - cap)

/-- The age-based weight computed inside `add_sample` (basic_strategy.py
70-76): `age = current_time - timestamp` relative to the most recently
stored sample, then `exp(-decay_rate * age)`; `1.0` when nothing is stored. -/
noncomputable def newSampleWeight (h : DecayingHistogram)
    (decayRate timestamp : ℝ) : ℝ :=
  match h.samples.getLast? with
  | some last => Real.exp (-decayRate * (last.timestamp - timestamp))
  | none => 1.0

/-- `DecayingHistogram.add_sample` (basic_strategy.py 65-85).  The final
`if len(self.samples) > self.max_samples` pruning branch is kept from the
source even though a `deque(maxlen=max_samples)` can never exceed
`max_samples`, so the branch is dead code. -/
noncomputable def addSample (h : DecayingHistogram) (value timestamp : ℝ) :
    DecayingHistogram :=
  let decayRate := updateDecayRate h
  let importance := calculateImportance h value timestamp
  let weight := newSampleWeight h decayRate timestamp
  let appended := dequeAppend h.maxSamples h.samples
    ⟨value, timestamp, weight, importance⟩
  let pruned :=
    if h.maxSamples < appended.length then
      (appended.mergeSort (fun a b => decide (b.importance ≤ a.importance))).take
        h.maxSamples
    else appended
  ⟨h.maxSamples, decayRate, pruned⟩

/-- A sequence of `add_sample` calls, oldest first. -/
noncomputable def addSamples (h : DecayingHistogram) (points : List (ℝ × ℝ)) :
    DecayingHistogram :=
  points.foldl (fun h p => addSample h p.1 p.2) h

/-- `DecayingHistogram._get_weights` (basic_strategy.py 87-93): weight times
importance, normalised when the total is positive. -/
noncomputable def getWeights (samples : List Sample) : List ℝ :=
  let weights := samples.map (fun s => s.weight * s.importance)
  if 0 < weights.sum then weights.map (· / weights.sum) else weights

/-- `np.cumsum`. -/
noncomputable def cumsum : List ℝ → List ℝ
  | [] => []
  | x :: xs => x :: (cumsum xs).map (x + ·)

/-- `np.searchsorted(xs, v)` (left variant) on a sorted list: the number of
elements strictly below `v`. -/
noncomputable def searchsortedLeft (xs : List ℝ) (v : ℝ) : ℕ :=
  xs.countP (fun c => decide (c < v))

/-- The `np.argsort`-by-value step of `get_quantile`: the (value, weight)
pairs reordered so the values are non-decreasing.  `np.argsort` applies one
value-sorting permutation to both arrays, which is what sorting the zipped
pairs by first component does. -/
noncomputable def sortedValueWeights (samples : List Sample) : List (ℝ × ℝ) :=
  ((samples.map Sample.value).zip (getWeights samples)).mergeSort
    (fun a b => decide (a.1 ≤ b.1))

/-- The branch structure of `get_quantile` after the empty guard
(basic_strategy.py 100-125), over the sorted values and their cumulative
weights. -/
noncomputable def quantileCore (values cw : List ℝ) (q : ℝ) : ℝ :=
  let idx := searchsortedLeft cw q
  if idx = 0 then values.getD 0 0
  else if idx = values.length then values.getD (values.length - 1) 0
  else
    let weightBelow := cw.getD (idx - 1) 0
    let weightAbove := cw.getD idx 0
    let sampleBelow := values.getD (idx - 1) 0
    let sampleAbove := values.getD idx 0
    if weightAbove = weightBelow then sampleBelow
    else sampleBelow + (q - weightBelow) / (weightAbove - weightBelow)
      * (sampleAbove - sampleBelow)

/-- `DecayingHistogram.get_quantile` (basic_strategy.py 95-125). -/
noncomputable def getQuantile (samples : List Sample) (q : ℝ) : ℝ :=
  if samples.isEmpty then 0.0
  else
    let svw := sortedValueWeights samples
    quantileCore (svw.map Prod.fst) (cumsum (svw.map Prod.snd)) q

/-! ### Shared numeric helpers for the strategy implementations -/

/-- Python truthiness of the optional `timestamps` argument: `not timestamps`
is true both for `None` and for an empty list. -/
def tsEmpty : Option (List ℝ) → Bool
  | none => true
  | some l => l.isEmpty

/-- Python `max` over a list (call sites guard non-emptiness). -/
def pyListMax : List ℝ → ℝ
  | [] => 0
  | x :: rest => rest.foldl max x

/-- `np.percentile(xs, p)` with the default linear interpolation. -/
noncomputable def npPercentile (xs : List ℝ) (p : ℝ) : ℝ :=
  let sorted := xs.mergeSort (fun a b => decide (a ≤ b))
  let n := xs.length
  let h := p / 100 * ((n : ℝ) - 1)
  let i := (⌊h⌋).toNat
  if i + 1 < n then
    sorted.getD i 0 + (h - (i : ℝ)) * (sorted.getD (i + 1) 0 - sorted.getD i 0)
  else sorted.getD (n - 1) 0

/-- `np.std` (population standard deviation, ddof=0). -/
noncomputable def npStd (xs : List ℝ) : ℝ :=
  Real.sqrt ((xs.map (fun x => (x - pyMean xs) ^ 2)).sum / (xs.length : ℝ))

/-- The slope of `np.polyfit(xs, ys, 1)` (least-squares line). -/
noncomputable def polyfitSlope (xs ys : List ℝ) : ℝ :=
  let n := (xs.length : ℝ)
  let sx := xs.sum
  let sy := ys.sum
  let sxy := ((xs.zip ys).map (fun p => p.1 * p.2)).sum
  let sxx := (xs.map (fun x => x ^ 2)).sum
  (n * sxy - sx * sy) / (n * sxx - sx ^ 2)

/-- `[0, 1, ..., n-1]` as reals (`np.arange`). -/
noncomputable def realRange (n : ℕ) : List ℝ :=
  (List.range n).map (fun i => (i : ℝ))

/-- `series.rolling(window=w, min_periods=1).mean()`: trailing-window means. -/
noncomputable def rollingMean (w : ℕ) (xs : List ℝ) : List ℝ :=
  (List.range xs.length).map (fun i => pyMean (lastN w (xs.take (i + 1))))

/-- The defined (non-NaN) entries of
`series.rolling(window=w, min_periods=1).std()`: the sample standard
deviations of the trailing windows of size at least two (the row-0 window
has one observation, whose sample std is NaN and is skipped by the pandas
`mean()` used at the call site). -/
noncomputable def rollingStdValid (w : ℕ) (xs : List ℝ) : List ℝ :=
  ((List.range xs.length).drop 1).map
    (fun i => pyStdev (lastN w (xs.take (i + 1))))

/-- `series.ewm(span=span, adjust=False).mean().iloc[-1]`. -/
noncomputable def ewmaLast (span : ℝ) (xs : List ℝ) : ℝ :=
  match xs with
  | [] => 0
  | x :: rest =>
    rest.foldl (fun acc y => 2 / (span + 1) * y + (1 - 2 / (span + 1)) * acc) x

/-- `pd.to_datetime(t, unit='s').hour` on a tz-naive (UTC) timestamp. -/
noncomputable def utcHour (t : ℝ) : ℤ := ⌊t / 3600⌋ % 24

/-- `pd.to_datetime(t, unit='s').dayofweek` (Monday = 0; the Unix epoch was
a Thursday, weekday 3). -/
noncomputable def utcDay (t : ℝ) : ℤ := (⌊t / 86400⌋ + 3) % 7

/-! ### strategy/basic_strategy.py: BasicStrategy -/

/-- The two persistent histograms of a `BasicStrategy` instance
(basic_strategy.py 138-141). -/
structure BasicState where
  cpuHistogram : DecayingHistogram
  memoryHistogram : DecayingHistogram

/-- `BasicStrategy.__init__`: cpu histogram decay 0.1, memory decay 0.05,
both capped at 1000. -/
def BasicState.fresh : BasicState :=
  ⟨DecayingHistogram.init 1000 0.1, DecayingHistogram.init 1000 0.05⟩

/-- `BasicStrategy._calculate_data_quality` (basic_strategy.py 143-157).
`volatility` calls `statistics.stdev`, which raises on fewer than two data
points whenever the mean is positive; the error channel carries that. -/
noncomputable def basicDataQuality (cpuHistMax : ℕ) (samples : List Sample) :
    Except String ℝ :=
  if samples.isEmpty then .ok 0.0
  else
    let values := samples.map Sample.value
    (if 0 < pyMean values then (pyStdevE values).map (· / pyMean values)
     else .ok 0.0).map
      (fun volatility =>
        let coverage := (samples.length : ℝ) / (cpuHistMax : ℝ)
        let importance := pyMean (samples.map Sample.importance)
        let quality := (1 - min 1 volatility) * 0.4 + coverage * 0.3
          + importance * 0.3
        max 0.1 (min 1.0 quality))

/-- `BasicStrategy._get_confidence_factor` (basic_strategy.py 159-168). -/
noncomputable def basicConfidenceFactor (cpuHistMax : ℕ) (samples : List Sample) :
    Except String ℝ :=
  if samples.isEmpty then .ok 1.15
  else (basicDataQuality cpuHistMax samples).map
    (fun quality => max 1.05 (1.15 * (1 - quality * 0.5)))

/-- `BasicStrategy.calculate_cpu_request` (basic_strategy.py 170-193).
The histogram mutation is reflected by folding the zipped samples into the
instance's cpu histogram. -/
noncomputable def basicCalculateCpuRequest (cfg : RecommendationConfig)
    (st : BasicState) (cpuSamples : List ℝ) (timestamps : Option (List ℝ)) :
    Except String ℝ :=
  if cpuSamples.isEmpty || tsEmpty timestamps then .ok cfg.minCpuCores
  else
    let hist := addSamples st.cpuHistogram (cpuSamples.zip (timestamps.getD []))
    let p90 := getQuantile hist.samples 0.90
    let p95 := getQuantile hist.samples 0.95
    (basicConfidenceFactor hist.maxSamples hist.samples).map
      (fun confidence =>
        let baseValue := if 1.5 < p95 / p90 then p90 else p95
        max (baseValue * confidence) cfg.minCpuCores)

/-- `BasicStrategy.calculate_memory_request` (basic_strategy.py 195-218).
As in the source, the data-quality coverage denominator is the *cpu*
histogram's `max_samples`. -/
noncomputable def basicCalculateMemoryRequest (cfg : RecommendationConfig)
    (st : BasicState) (memorySamples : List ℝ) (timestamps : Option (List ℝ)) :
    Except String ℝ :=
  if memorySamples.isEmpty || tsEmpty timestamps then .ok cfg.minMemoryBytes
  else
    let hist := addSamples st.memoryHistogram
      (memorySamples.zip (timestamps.getD []))
    let p90 := getQuantile hist.samples 0.90
    let p95 := getQuantile hist.samples 0.95
    (basicConfidenceFactor st.cpuHistogram.maxSamples hist.samples).map
      (fun confidence =>
        let baseValue := if 1.5 < p95 / p90 then p90 else p95
        max (baseValue * confidence * cfg.memoryBuffer) cfg.minMemoryBytes)

/-- Proof scaffolding: the cpu histogram state after `k` insertions of the
constant sample (0.05, t=0) from a fresh `BasicStrategy`. -/
noncomputable def constHistState (k : ℕ) : DecayingHistogram :=
  ⟨1000, if k = 0 then 0.1 else 0.01,
    if k = 0 then []
    else ⟨0.05, 0, 1, 1⟩ :: List.replicate (k - 1) ⟨0.05, 0, 1, 0.1⟩⟩

/-! ### strategy/time_aware_strategy.py -/

/-- The dictionary `TimeAwareStrategy._analyze_time_patterns` returns
(time_aware_strategy.py 49-100).  `hourOf`/`dayOf` stand for the pandas
Europe/Berlin local-time conversion, which is outside the embedding. -/
structure TimePatterns where
  businessHoursP95 : ℝ
  businessHoursPeak : ℝ
  nonBusinessP95 : ℝ
  overallP95 : ℝ
  overallPeak : ℝ
  businessDiffQuot : ℝ
  businessMean : ℝ
  nonBusinessMean : ℝ

/-- `TimeAwareStrategy._analyze_time_patterns`. -/
noncomputable def timeAwarePatterns (cfg : RecommendationConfig)
    (hourOf dayOf : ℝ → ℤ) (samples ts : List ℝ) : TimePatterns :=
  let rows := ts.zip samples
  let isBiz := fun (r : ℝ × ℝ) =>
    decide (cfg.businessHoursStart ≤ hourOf r.1 ∧ hourOf r.1 < cfg.businessHoursEnd
      ∧ dayOf r.1 ∈ cfg.businessDays)
  let business := rows.filter isBiz
  let nonBusiness := rows.filter (fun r => ! isBiz r)
  let businessMean := if business.isEmpty then 0 else pyMean (business.map Prod.snd)
  let nonBusinessMean :=
    if nonBusiness.isEmpty then 0 else pyMean (nonBusiness.map Prod.snd)
  let overallMean := if rows.isEmpty then 0 else pyMean (rows.map Prod.snd)
  { businessHoursP95 :=
      if business.isEmpty then 0 else npPercentile (business.map Prod.snd) 95
    businessHoursPeak :=
      if business.isEmpty then 0 else pyListMax (business.map Prod.snd)
    nonBusinessP95 :=
      if nonBusiness.isEmpty then 0 else npPercentile (nonBusiness.map Prod.snd) 95
    overallP95 := if rows.isEmpty then 0 else npPercentile (rows.map Prod.snd) 95
    overallPeak := if rows.isEmpty then 0 else pyListMax (rows.map Prod.snd)
    businessDiffQuot :=
      if overallMean ≠ 0 then |businessMean - nonBusinessMean| / overallMean else 0
    businessMean := businessMean
    nonBusinessMean := nonBusinessMean }

/-- `TimeAwareStrategy.calculate_cpu_request` (time_aware_strategy.py 18-33). -/
noncomputable def timeAwareCalculateCpuRequest (cfg : RecommendationConfig)
    (hourOf dayOf : ℝ → ℤ) (samples : List ℝ) (ts : Option (List ℝ)) : ℝ :=
  if samples.isEmpty || tsEmpty ts then cfg.minCpuCores
  else
    let p := timeAwarePatterns cfg hourOf dayOf samples (ts.getD [])
    let recommendation :=
      if 0.2 < p.businessDiffQuot then
        if 0 < p.businessHoursP95 then p.businessHoursP95 * 1.1
        else p.overallP95 * 1.1
      else p.overallP95 * 1.1
    max recommendation cfg.minCpuCores

/-- `TimeAwareStrategy.calculate_memory_request` (time_aware_strategy.py 35-47). -/
noncomputable def timeAwareCalculateMemoryRequest (cfg : RecommendationConfig)
    (hourOf dayOf : ℝ → ℤ) (samples : List ℝ) (ts : Option (List ℝ)) : ℝ :=
  if samples.isEmpty || tsEmpty ts then cfg.minMemoryBytes
  else
    let p := timeAwarePatterns cfg hourOf dayOf samples (ts.getD [])
    let recommendation :=
      if 0.2 < p.businessDiffQuot ∧ 0 < p.businessHoursPeak then
        p.businessHoursPeak * cfg.memoryBuffer
      else p.overallPeak * cfg.memoryBuffer
    max recommendation cfg.minMemoryBytes

/-! ### strategy/trend_aware_strategy.py -/

/-- The trend classification strings used by the strategies. -/
inductive Trend where
  | volatile
  | increasing
  | decreasing
  | stable
deriving DecidableEq

/-- `TrendAwareStrategy._analyze_trends` (trend_aware_strategy.py 49-91):
trend kind, growth rate and volatility. -/
noncomputable def trendAwareAnalyze (cfg : RecommendationConfig)
    (samples : List ℝ) (ts : Option (List ℝ)) : Trend × ℝ × ℝ :=
  if samples.length < 2 || tsEmpty ts then (.stable, 0, 0)
  else
    let n := samples.length
    let rolling := rollingMean 6 samples
    let slope := polyfitSlope (realRange n) rolling
    let meanValue := pyMean samples
    let growthRate := if meanValue ≠ 0 then slope * (n : ℝ) / meanValue else 0
    let volatility := if meanValue ≠ 0 then pyStdev samples / meanValue else 0
    let trend : Trend :=
      if cfg.highVarianceThreshold < volatility then .volatile
      else if cfg.trendThreshold < growthRate then .increasing
      else if growthRate < -cfg.trendThreshold then .decreasing
      else .stable
    (trend, growthRate, volatility)

/-- `TrendAwareStrategy.calculate_cpu_request` (trend_aware_strategy.py 17-31). -/
noncomputable def trendAwareCalculateCpuRequest (cfg : RecommendationConfig)
    (samples : List ℝ) (ts : Option (List ℝ)) : ℝ :=
  if samples.isEmpty || tsEmpty ts then cfg.minCpuCores
  else
    let ta := trendAwareAnalyze cfg samples ts
    let baseValue := npPercentile samples cfg.cpuPercentile
    if ta.1 = .increasing then
      max (baseValue * (1 + ta.2.1 * 1.2)) cfg.minCpuCores
    else if ta.1 = .volatile then max (baseValue * 1.2) cfg.minCpuCores
    else max (baseValue * 1.1) cfg.minCpuCores

/-- `TrendAwareStrategy.calculate_memory_request`
(trend_aware_strategy.py 33-47). -/
noncomputable def trendAwareCalculateMemoryRequest (cfg : RecommendationConfig)
    (samples : List ℝ) (ts : Option (List ℝ)) : ℝ :=
  if samples.isEmpty || tsEmpty ts then cfg.minMemoryBytes
  else
    let ta := trendAwareAnalyze cfg samples ts
    let baseValue := pyListMax samples
    if ta.1 = .increasing then
      max (baseValue * (1 + ta.2.1 * 1.5) * cfg.memoryBuffer) cfg.minMemoryBytes
    else if ta.1 = .volatile then
      max (baseValue * 1.3 * cfg.memoryBuffer) cfg.minMemoryBytes
    else max (baseValue * cfg.memoryBuffer) cfg.minMemoryBytes

/-! ### strategy/workload_aware_strategy.py -/

/-- Workload classification. -/
inductive Workload where
  | intensive
  | moderate
  | stable
deriving DecidableEq

/-- `WorkloadAwareStrategy._detect_workload_type`
(workload_aware_strategy.py 50-91).  With timestamps, pandas takes the mean
of the rolling stds skipping the NaN row-0 entry; with a single sample the
all-NaN mean (which classifies as stable through always-false NaN
comparisons) is modelled as 0, which lands in the same branch. -/
noncomputable def detectWorkloadType (cfg : RecommendationConfig)
    (samples : List ℝ) (ts : Option (List ℝ)) : Workload :=
  if samples.isEmpty then .stable
  else if tsEmpty ts = false then
    let rmeans := rollingMean 6 samples
    let rstds := rollingStdValid 6 samples
    let mean := pyMean rmeans
    let std := if rstds.isEmpty then 0 else pyMean rstds
    let cv := if mean ≠ 0 then std / mean else 0
    let spikes := ((samples.filter (fun v => decide (mean + 2 * std < v))).length : ℝ)
      / (samples.length : ℝ)
    if cfg.highVarianceThreshold < cv ∨ 0.1 < spikes then .intensive
    else if cfg.highVarianceThreshold / 2 < cv ∨ 0.05 < spikes then .moderate
    else .stable
  else
    let mean := pyMean samples
    let std := npStd samples
    let cv := if mean ≠ 0 then std / mean else 0
    if cfg.highVarianceThreshold < cv then .intensive
    else if cfg.highVarianceThreshold / 2 < cv then .moderate
    else .stable

/-- `WorkloadAwareStrategy.calculate_cpu_request`
(workload_aware_strategy.py 17-31). -/
noncomputable def workloadAwareCalculateCpuRequest (cfg : RecommendationConfig)
    (samples : List ℝ) (ts : Option (List ℝ)) : ℝ :=
  if samples.isEmpty then cfg.minCpuCores
  else
    match detectWorkloadType cfg samples ts with
    | .intensive => max (npPercentile samples 99 * 1.1) cfg.minCpuCores
    | .moderate => max (npPercentile samples 95 * 1.1) cfg.minCpuCores
    | .stable => max (npPercentile samples 90 * 1.1) cfg.minCpuCores

/-- `WorkloadAwareStrategy.calculate_memory_request`
(workload_aware_strategy.py 33-48). -/
noncomputable def workloadAwareCalculateMemoryRequest (cfg : RecommendationConfig)
    (samples : List ℝ) (ts : Option (List ℝ)) : ℝ :=
  if samples.isEmpty then cfg.minMemoryBytes
  else
    let peak := pyListMax samples
    match detectWorkloadType cfg samples ts with
    | .intensive => max (peak * 1.3) cfg.minMemoryBytes
    | .moderate => max (peak * 1.2) cfg.minMemoryBytes
    | .stable => max (peak * cfg.memoryBuffer) cfg.minMemoryBytes

/-! ### strategy/adaptive_strategy.py -/

/-- `AdaptiveStrategy._analyze_time_patterns` (adaptive_strategy.py 63-90):
pattern flag and business-hours p95.  Timestamps stay in UTC here (no
timezone conversion in the source), and the hour filter is inclusive on
both ends (`hour <= end`), unlike the time-aware strategy. -/
noncomputable def adaptiveTimePatterns (cfg : RecommendationConfig)
    (samples ts : List ℝ) : Bool × ℝ :=
  let rows := ts.zip samples
  let isBiz := fun (r : ℝ × ℝ) =>
    decide (cfg.businessHoursStart ≤ utcHour r.1 ∧ utcHour r.1 ≤ cfg.businessHoursEnd
      ∧ utcDay r.1 ∈ cfg.businessDays)
  let business := rows.filter isBiz
  let nonBusiness := rows.filter (fun r => ! isBiz r)
  let businessMean := if business.isEmpty then 0 else pyMean (business.map Prod.snd)
  let nonBusinessMean :=
    if nonBusiness.isEmpty then 0 else pyMean (nonBusiness.map Prod.snd)
  (decide (businessMean * 0.2 < |businessMean - nonBusinessMean|),
    if business.isEmpty then 0 else npPercentile (business.map Prod.snd) 95)

/-- `AdaptiveStrategy._analyze_trends` (adaptive_strategy.py 92-109). -/
noncomputable def adaptiveTrend (cfg : RecommendationConfig)
    (samples : List ℝ) : Trend × ℝ :=
  if samples.length < 2 then (.stable, 0)
  else
    let n := samples.length
    let slope := polyfitSlope (realRange n) samples
    let growthRate := if samples.headI ≠ 0 then slope * (n : ℝ) / samples.headI else 0
    let trend : Trend :=
      if cfg.trendThreshold < growthRate then .increasing
      else if growthRate < -cfg.trendThreshold then .decreasing
      else .stable
    (trend, growthRate)

/-- `AdaptiveStrategy.calculate_cpu_request` (adaptive_strategy.py 21-39).
Note the empty guard tests only the samples, not the timestamps. -/
noncomputable def adaptiveCalculateCpuRequest (cfg : RecommendationConfig)
    (samples : List ℝ) (ts : Option (List ℝ)) : ℝ :=
  if samples.isEmpty then cfg.minCpuCores
  else
    let p95 := npPercentile samples 95
    let p99 := npPercentile samples 99
    if 2 < p99 / p95 then max (p99 * 1.1) cfg.minCpuCores
    else if tsEmpty ts = false then
      let tp := adaptiveTimePatterns cfg samples (ts.getD [])
      if tp.1 then max (tp.2 * 1.1) cfg.minCpuCores
      else max (p95 * 1.1) cfg.minCpuCores
    else max (p95 * 1.1) cfg.minCpuCores

/-- `AdaptiveStrategy.calculate_memory_request` (adaptive_strategy.py 41-61). -/
noncomputable def adaptiveCalculateMemoryRequest (cfg : RecommendationConfig)
    (samples : List ℝ) (ts : Option (List ℝ)) : ℝ :=
  if samples.isEmpty then cfg.minMemoryBytes
  else
    let peak := pyListMax samples
    let p95 := npPercentile samples 95
    if p95 * 2 < peak then
      max ((0.7 * peak + 0.3 * p95) * cfg.memoryBuffer) cfg.minMemoryBytes
    else
      let tr := adaptiveTrend cfg samples
      if tr.1 = .increasing then
        max (peak * (1 + tr.2) * cfg.memoryBuffer) cfg.minMemoryBytes
      else max (peak * cfg.memoryBuffer) cfg.minMemoryBytes

/-! ### strategy/quantile_regression_strategy.py -/

/-- `QuantileRegressionStrategy.calculate_cpu_request`
(quantile_regression_strategy.py 30-52).  `fitPredict ts samples q` stands
for fitting the statsmodels `QuantReg` model on the polynomial time
features at quantile `q` and predicting at the latest timestamp; the
`Except` carries any exception the fit or prediction raises.  There is no
`try/except` in the source, so errors propagate. -/
noncomputable def quantileRegressionCalculateCpuRequest
    (cfg : RecommendationConfig)
    (fitPredict : List ℝ → List ℝ → ℝ → Except String ℝ)
    (samples : List ℝ) (ts : Option (List ℝ)) : Except String ℝ :=
  if samples.isEmpty || tsEmpty ts then .ok cfg.minCpuCores
  else do
    let p50 ← fitPredict (ts.getD []) samples 0.50
    let p75 ← fitPredict (ts.getD []) samples 0.75
    let p95 ← fitPredict (ts.getD []) samples 0.95
    return max ((0.2 * p50 + 0.3 * p75 + 0.5 * p95) * 1.1) cfg.minCpuCores

/-- `QuantileRegressionStrategy.calculate_memory_request`
(quantile_regression_strategy.py 54-76). -/
noncomputable def quantileRegressionCalculateMemoryRequest
    (cfg : RecommendationConfig)
    (fitPredict : List ℝ → List ℝ → ℝ → Except String ℝ)
    (samples : List ℝ) (ts : Option (List ℝ)) : Except String ℝ :=
  if samples.isEmpty || tsEmpty ts then .ok cfg.minMemoryBytes
  else do
    let p75 ← fitPredict (ts.getD []) samples 0.75
    let p95 ← fitPredict (ts.getD []) samples 0.95
    let p99 ← fitPredict (ts.getD []) samples 0.99
    return max ((0.1 * p75 + 0.3 * p95 + 0.6 * p99) * cfg.memoryBuffer)
      cfg.minMemoryBytes

/-! ### strategy/moving_average_strategy.py -/

/-- `MovingAverageStrategy._calculate_prediction_interval`
(moving_average_strategy.py 20-27).  `tcrit confidence df` stands for the
scipy `t.ppf((1+confidence)/2, df)` call; the rolling std is the sample
standard deviation of the last `min(len, 12)` window.  `none` is the NaN
float: on a singleton series the rolling std (ddof=1 over one observation)
and `t.ppf(…, df=0)` are both NaN; for two or more samples the last window
is full and has at least two observations, so the result is a number. -/
noncomputable def predictionInterval (tcrit : ℝ → ℝ → ℝ)
    (xs : List ℝ) (confidence : ℝ) : Option ℝ :=
  if xs.length < 2 then none
  else some (pyStdev (lastN (min xs.length 12) xs)
    * tcrit confidence ((xs.length : ℝ) - 1))

/-- `MovingAverageStrategy.calculate_cpu_request`
(moving_average_strategy.py 29-48).  No timestamp guard in the source.
`none` is a NaN return value: a NaN prediction interval makes
`recommended` NaN, and Python's `max(NaN * 1.1, min)` keeps its first
argument because every comparison with NaN is false. -/
noncomputable def movingAverageCalculateCpuRequest (cfg : RecommendationConfig)
    (tcrit : ℝ → ℝ → ℝ) (samples : List ℝ) (ts : Option (List ℝ)) : Option ℝ :=
  if samples.isEmpty then some cfg.minCpuCores
  else
    let shortTerm := ewmaLast 6 samples
    let mediumTerm := ewmaLast 12 samples
    let longTerm := ewmaLast 24 samples
    let weightedAvg := 0.5 * shortTerm + 0.3 * mediumTerm + 0.2 * longTerm
    match predictionInterval tcrit samples 0.95 with
    | none => none
    | some pi2 => some (max ((weightedAvg + pi2) * 1.1) cfg.minCpuCores)

/-- `MovingAverageStrategy.calculate_memory_request`
(moving_average_strategy.py 50-68); NaN flows exactly as in the CPU case. -/
noncomputable def movingAverageCalculateMemoryRequest (cfg : RecommendationConfig)
    (tcrit : ℝ → ℝ → ℝ) (samples : List ℝ) (ts : Option (List ℝ)) : Option ℝ :=
  if samples.isEmpty then some cfg.minMemoryBytes
  else
    let mediumTerm := ewmaLast 24 samples
    let longTerm := ewmaLast 48 samples
    let weightedAvg := 0.4 * mediumTerm + 0.6 * longTerm
    match predictionInterval tcrit samples 0.99 with
    | none => none
    | some pi2 => some (max ((weightedAvg + pi2) * cfg.memoryBuffer)
        cfg.minMemoryBytes)

/-! ### strategy/pmdarima_strategy.py -/

/-- `PMDARIMAStrategy.calculate_cpu_request` (pmdarima_strategy.py 130-152).
`fitPredict samples ts` stands for `_fit_and_predict` on the prepared
series: that helper catches every exception internally and returns
`(None, None)` (here `none`) on failure, otherwise the forecast and the
upper confidence bound.  The outer `try/except` falls back to the 95th
percentile. -/
noncomputable def pmdarimaCalculateCpuRequest (cfg : RecommendationConfig)
    (fitPredict : List ℝ → List ℝ → Option (ℝ × ℝ))
    (samples : List ℝ) (ts : Option (List ℝ)) : ℝ :=
  if samples.isEmpty || tsEmpty ts then cfg.minCpuCores
  else
    match fitPredict samples (ts.getD []) with
    | some pu => max (pu.2 * 1.1) cfg.minCpuCores
    | none => max (npPercentile samples 95 * 1.1) cfg.minCpuCores

/-- `PMDARIMAStrategy.calculate_memory_request`
(pmdarima_strategy.py 154-176): peak-based fallback. -/
noncomputable def pmdarimaCalculateMemoryRequest (cfg : RecommendationConfig)
    (fitPredict : List ℝ → List ℝ → Option (ℝ × ℝ))
    (samples : List ℝ) (ts : Option (List ℝ)) : ℝ :=
  if samples.isEmpty || tsEmpty ts then cfg.minMemoryBytes
  else
    match fitPredict samples (ts.getD []) with
    | some pu => max (pu.2 * cfg.memoryBuffer) cfg.minMemoryBytes
    | none => max (pyListMax samples * cfg.memoryBuffer) cfg.minMemoryBytes

/-! ### strategy/prophet_strategy.py -/

/-- `ProphetStrategy.calculate_cpu_request` (prophet_strategy.py 69-106).
The oracle is `none` when `_fit_prophet_model` returned `None` (it catches
fit exceptions itself), `some (.error e)` when the later prediction raises
(caught by the outer handler), and `some (.ok u)` for a successful
`yhat_upper` maximum.  Both failure paths fall back to p95. -/
noncomputable def prophetCalculateCpuRequest (cfg : RecommendationConfig)
    (fitPredict : Option (Except String ℝ))
    (samples : List ℝ) (ts : Option (List ℝ)) : ℝ :=
  if samples.isEmpty || tsEmpty ts then cfg.minCpuCores
  else
    match fitPredict with
    | none => max (npPercentile samples 95 * 1.1) cfg.minCpuCores
    | some (.error _) => max (npPercentile samples 95 * 1.1) cfg.minCpuCores
    | some (.ok upper) => max (upper * 1.1) cfg.minCpuCores

/-- `ProphetStrategy.calculate_memory_request` (prophet_strategy.py 108-145):
peak-based fallback. -/
noncomputable def prophetCalculateMemoryRequest (cfg : RecommendationConfig)
    (fitPredict : Option (Except String ℝ))
    (samples : List ℝ) (ts : Option (List ℝ)) : ℝ :=
  if samples.isEmpty || tsEmpty ts then cfg.minMemoryBytes
  else
    match fitPredict with
    | none => max (pyListMax samples * cfg.memoryBuffer) cfg.minMemoryBytes
    | some (.error _) => max (pyListMax samples * cfg.memoryBuffer) cfg.minMemoryBytes
    | some (.ok upper) => max (upper * cfg.memoryBuffer) cfg.minMemoryBytes

/-! ### strategy/ensemble_strategy.py -/

/-- The oracle bundle an `EnsembleStrategy` hands to its members. -/
structure EnsembleOracles where
  hourOf : ℝ → ℤ
  dayOf : ℝ → ℤ
  qrFitPredict : List ℝ → List ℝ → ℝ → Except String ℝ
  tcrit : ℝ → ℝ → ℝ
  prophetFitPredict : Option (Except String ℝ)

/-- `EnsembleStrategy.calculate_cpu_request` (ensemble_strategy.py 71-89):
each member is invoked under `try/except`, a failing member contributes the
configured minimum, the results are blended with the uniform 1/7 weights,
and a 1.1 safety margin is applied.  Members: basic, time_aware,
workload_aware, trend_aware, quantile_regression, moving_average, prophet
(pmdarima is commented out in the source).  A NaN (`none`) produced by the
moving-average member does not raise, so the `try/except` does not replace
it with the minimum: it propagates through the weighted sum and the final
`max`, making the whole ensemble return NaN. -/
noncomputable def ensembleCalculateCpuRequest (cfg : RecommendationConfig)
    (st : BasicState) (o : EnsembleOracles)
    (samples : List ℝ) (ts : Option (List ℝ)) : Option ℝ :=
  if samples.isEmpty || tsEmpty ts then some cfg.minCpuCores
  else
    let basicP := match basicCalculateCpuRequest cfg st samples ts with
      | .ok v => v
      | .error _ => cfg.minCpuCores
    let timeP := timeAwareCalculateCpuRequest cfg o.hourOf o.dayOf samples ts
    let workloadP := workloadAwareCalculateCpuRequest cfg samples ts
    let trendP := trendAwareCalculateCpuRequest cfg samples ts
    let qrP := match quantileRegressionCalculateCpuRequest cfg o.qrFitPredict
        samples ts with
      | .ok v => v
      | .error _ => cfg.minCpuCores
    let prP := prophetCalculateCpuRequest cfg o.prophetFitPredict samples ts
    match movingAverageCalculateCpuRequest cfg o.tcrit samples ts with
    | none => none
    | some maP =>
      let weightedPred := basicP * (1 / 7) + timeP * (1 / 7)
        + workloadP * (1 / 7) + trendP * (1 / 7) + qrP * (1 / 7)
        + maP * (1 / 7) + prP * (1 / 7)
      some (max (weightedPred * 1.1) cfg.minCpuCores)

/-- `EnsembleStrategy.calculate_memory_request` (ensemble_strategy.py 91-109).
As in the CPU case, a NaN from the moving-average member is not an
exception, so the per-member `try/except` does not replace it; it
contaminates the weighted sum and the final `max` returns it. -/
noncomputable def ensembleCalculateMemoryRequest (cfg : RecommendationConfig)
    (st : BasicState) (o : EnsembleOracles)
    (samples : List ℝ) (ts : Option (List ℝ)) : Option ℝ :=
  if samples.isEmpty || tsEmpty ts then some cfg.minMemoryBytes
  else
    let basicP := match basicCalculateMemoryRequest cfg st samples ts with
      | .ok v => v
      | .error _ => cfg.minMemoryBytes
    let timeP := timeAwareCalculateMemoryRequest cfg o.hourOf o.dayOf samples ts
    let workloadP := workloadAwareCalculateMemoryRequest cfg samples ts
    let trendP := trendAwareCalculateMemoryRequest cfg samples ts
    let qrP := match quantileRegressionCalculateMemoryRequest cfg o.qrFitPredict
        samples ts with
      | .ok v => v
      | .error _ => cfg.minMemoryBytes
    let prP := prophetCalculateMemoryRequest cfg o.prophetFitPredict samples ts
    match movingAverageCalculateMemoryRequest cfg o.tcrit samples ts with
    | none => none
    | some maP =>
      let weightedPred := basicP * (1 / 7) + timeP * (1 / 7)
        + workloadP * (1 / 7) + trendP * (1 / 7) + qrP * (1 / 7)
        + maP * (1 / 7) + prP * (1 / 7)
      some (max (weightedPred * cfg.memoryBuffer) cfg.minMemoryBytes)

end KRR

namespace KRR

/-- Severity of a freshly assembled value: `current=None` with a present
recommended value always lands in the exactly-one-absent branch. -/
theorem determineSeverity_none_some (v : ℝ) :
    determineSeverity none (some v) = Severity.WARNING := rfl

/-- C1 counterexample: at raw strategy outputs 0.5 cores / 200MiB the
assembled record's request severity is WARNING, not GOOD as claimed. -/
theorem C1_counterexample :
    (assembleRecommendation 0.5 (200 * 1024 * 1024)).requestsCpu.severity
      ≠ Severity.GOOD := by
  simp [assembleRecommendation, determineSeverity_none_some]

/-- C1 (amended): for every recommendation record the orchestrator
assembles, each of the four severities is computed by passing
`current=None` together with the recommended value to
`_determine_severity`, and the result is WARNING by the
exactly-one-absent rule (not GOOD). -/
theorem C1_severity_of_assembled_record (rawCpu rawMemory : ℝ) :
    (assembleRecommendation rawCpu rawMemory).requestsCpu.severity
        = determineSeverity none (some (validateCpuRequest rawCpu)) ∧
    (assembleRecommendation rawCpu rawMemory).requestsMemory.severity
        = determineSeverity none (some (validateMemoryRequest rawMemory)) ∧
    (assembleRecommendation rawCpu rawMemory).limitsCpu.severity
        = determineSeverity none (some (calculateCpuLimit (validateCpuRequest rawCpu))) ∧
    (assembleRecommendation rawCpu rawMemory).limitsMemory.severity
        = determineSeverity none (some (calculateMemoryLimit (validateMemoryRequest rawMemory))) ∧
    (assembleRecommendation rawCpu rawMemory).requestsCpu.severity = Severity.WARNING ∧
    (assembleRecommendation rawCpu rawMemory).requestsMemory.severity = Severity.WARNING ∧
    (assembleRecommendation rawCpu rawMemory).limitsCpu.severity = Severity.WARNING ∧
    (assembleRecommendation rawCpu rawMemory).limitsMemory.severity = Severity.WARNING := by
  refine ⟨rfl, rfl, rfl, rfl, ?_, ?_, ?_, ?_⟩ <;>
    simp [assembleRecommendation, determineSeverity_none_some]

theorem validateCpuRequest_bounds (r : ℝ) :
    0.01 ≤ validateCpuRequest r ∧ validateCpuRequest r ≤ 64.0 := by
  unfold validateCpuRequest
  constructor
  · exact le_max_left _ _
  · refine max_le (by norm_num) ?_
    exact le_trans (min_le_right _ _) (by norm_num)

theorem validateMemoryRequest_bounds (r : ℝ) :
    32 * 1024 * 1024 ≤ validateMemoryRequest r ∧
    validateMemoryRequest r ≤ 256 * 1024 * 1024 * 1024 := by
  unfold validateMemoryRequest
  constructor
  · exact le_max_left _ _
  · refine max_le (by norm_num) ?_
    exact le_trans (min_le_right _ _) (by norm_num)

/-- C8: after clamping the request to the policy bounds and deriving the
limit through the tiered multipliers (themselves re-clamped to the same
bounds), the limit is at least the validated request, for both CPU and
memory and for every raw strategy output. -/
theorem C8_limit_ge_request (rawCpu rawMemory : ℝ) :
    validateCpuRequest rawCpu ≤ calculateCpuLimit (validateCpuRequest rawCpu) ∧
    validateMemoryRequest rawMemory
      ≤ calculateMemoryLimit (validateMemoryRequest rawMemory) := by
  constructor
  · set v := validateCpuRequest rawCpu with hv
    obtain ⟨h1, h2⟩ := validateCpuRequest_bounds rawCpu
    rw [← hv] at h1 h2
    have hvpos : (0 : ℝ) ≤ v := le_trans (by norm_num) h1
    unfold calculateCpuLimit validateCpuRequest
    have hle : v ≤ if v < 0.1 then v * 3.0 else if v < 1.0 then v * 2.5 else v * 2.0 := by
      split_ifs <;> nlinarith
    refine le_trans (le_min hle h2) (le_max_right _ _)
  · set v := validateMemoryRequest rawMemory with hv
    obtain ⟨h1, h2⟩ := validateMemoryRequest_bounds rawMemory
    rw [← hv] at h1 h2
    have hvpos : (0 : ℝ) ≤ v := le_trans (by norm_num) h1
    unfold calculateMemoryLimit validateMemoryRequest
    have hle : v ≤ if v < 256 * 1024 * 1024 then v * 1.5 else v * 1.3 := by
      split_ifs <;> nlinarith
    refine le_trans (le_min hle h2) (le_max_right _ _)

/-- C4 counterexample: a batch of two containers where the first raises.
`generate_recommendations` aborts with the exception; the second
container's record is not returned and no failure list exists — while the
behaviour the spec prescribes would return the second record alongside the
failure. -/
theorem C4_counterexample :
    generateRecommendations [("ns/a/c", .error "boom"), ("ns/b/c", .ok (1, 1))]
      = .error "boom" ∧
    generateRecommendationsSpec [("ns/a/c", .error "boom"), ("ns/b/c", .ok (1, 1))]
      = ([("ns/b/c", assembleRecommendation 1 1)], [("ns/a/c", "boom")]) := by
  constructor
  · rfl
  · rfl

theorem generateRecommendationsLoop_cons_error (k e : String)
    (rest : List (String × Except String (ℝ × ℝ))) :
    generateRecommendationsLoop ((k, .error e) :: rest) = .error e := rfl

theorem generateRecommendationsLoop_cons_ok (k : String) (v : ℝ × ℝ)
    (rest : List (String × Except String (ℝ × ℝ))) :
    generateRecommendationsLoop ((k, .ok v) :: rest) =
      (generateRecommendationsLoop rest).map
        (fun others => (k, assembleRecommendation v.1 v.2) :: others) := by
  obtain ⟨v1, v2⟩ := v
  cases hr : generateRecommendationsLoop rest <;>
    simp [generateRecommendationsLoop, hr, Except.map, Bind.bind, Except.bind,
      Pure.pure, Except.pure]

/-- C4 (amended): if computing the recommendation for any container in the
batch raises, the exception propagates out of `generate_recommendations`
(the decorator only logs and re-raises), aborting the whole batch; no
per-container containment or failure list exists. -/
theorem C4_batch_aborts_on_container_failure
    (containers : List (String × Except String (ℝ × ℝ)))
    (h : ∃ p ∈ containers, ∃ msg, p.2 = .error msg) :
    ∃ e, generateRecommendations containers = .error e := by
  suffices hl : ∃ e, generateRecommendationsLoop containers = .error e by
    obtain ⟨e, he⟩ := hl
    exact ⟨e, by simp [generateRecommendations, he, handleExceptions]⟩
  induction containers with
  | nil => simp at h
  | cons c rest ih =>
    obtain ⟨k, u⟩ := c
    cases u with
    | error e => exact ⟨e, generateRecommendationsLoop_cons_error k e rest⟩
    | ok v =>
      have hrest : ∃ p ∈ rest, ∃ msg, p.2 = .error msg := by
        obtain ⟨p, hp, msg, hmsg⟩ := h
        rcases List.mem_cons.mp hp with rfl | hmem
        · simp at hmsg
        · exact ⟨p, hmem, msg, hmsg⟩
      obtain ⟨e, he⟩ := ih hrest
      exact ⟨e, by rw [generateRecommendationsLoop_cons_ok, he]; rfl⟩

/-- C4 witness. -/
theorem C4_batch_aborts_on_container_failure_witness :
    ∃ e, generateRecommendations [("k", Except.error "boom")] = .error e :=
  C4_batch_aborts_on_container_failure [("k", .error "boom")]
    ⟨("k", .error "boom"), by simp, "boom", rfl⟩

/-! ### Decaying histogram invariants (C2, C6) -/

theorem dequeAppend_length {α : Type} (cap : ℕ) (xs : List α) (x : α) :
    (dequeAppend cap xs x).length = min (xs.length + 1) cap := by
  unfold dequeAppend
  split_ifs with h
  · simp [Nat.min_eq_left h]
  · simp only [List.length_drop, List.length_append, List.length_cons,
      List.length_nil]
    omega

theorem mem_dequeAppend {α : Type} {cap : ℕ} {xs : List α} {x a : α}
    (ha : a ∈ dequeAppend cap xs x) : a ∈ xs ∨ a = x := by
  unfold dequeAppend at ha
  split_ifs at ha with h
  · simpa using List.mem_append.mp ha
  · simpa using List.mem_append.mp (List.mem_of_mem_drop ha)

/-- The pruning branch of `add_sample` never fires: the deque already
bounds the length, so `add_sample` only appends (dropping the oldest
element first when the deque is full). -/
theorem addSample_samples (h : DecayingHistogram) (v t : ℝ) :
    (addSample h v t).samples =
      dequeAppend h.maxSamples h.samples
        ⟨v, t, newSampleWeight h (updateDecayRate h) t,
          calculateImportance h v t⟩ := by
  have hlen :
      (dequeAppend h.maxSamples h.samples
        ⟨v, t, newSampleWeight h (updateDecayRate h) t,
          calculateImportance h v t⟩).length ≤ h.maxSamples := by
    rw [dequeAppend_length]; exact min_le_right _ _
  simp [addSample, if_neg (not_lt.mpr hlen)]

theorem addSample_maxSamples (h : DecayingHistogram) (v t : ℝ) :
    (addSample h v t).maxSamples = h.maxSamples := rfl

theorem addSample_length_le (h : DecayingHistogram) (v t : ℝ) :
    (addSample h v t).samples.length ≤ h.maxSamples := by
  rw [addSample_samples, dequeAppend_length]
  exact min_le_right _ _

theorem updateDecayRate_bounds (h : DecayingHistogram) :
    0.01 ≤ updateDecayRate h ∧ updateDecayRate h ≤ 0.5 := by
  unfold updateDecayRate
  exact ⟨le_min (by norm_num) (le_max_left _ _), min_le_left _ _⟩

theorem calculateImportance_bounds (h : DecayingHistogram) (v t : ℝ) :
    0 < calculateImportance h v t ∧ calculateImportance h v t ≤ 1 := by
  unfold calculateImportance
  try dsimp only
  split_ifs <;>
    first
      | norm_num
      | exact ⟨lt_min (by norm_num) (lt_of_lt_of_le (by norm_num) (le_max_left _ _)),
          min_le_left _ _⟩

theorem newSampleWeight_pos (h : DecayingHistogram) (d t : ℝ) :
    0 < newSampleWeight h d t := by
  unfold newSampleWeight
  cases h.samples.getLast? with
  | none => norm_num
  | some last => exact Real.exp_pos _

theorem one_le_newSampleWeight (h : DecayingHistogram) (d t : ℝ)
    (hd : 0 ≤ d) (hts : ∀ s ∈ h.samples, s.timestamp ≤ t) :
    1 ≤ newSampleWeight h d t := by
  unfold newSampleWeight
  cases hl : h.samples.getLast? with
  | none => norm_num
  | some last =>
    have hmem : last ∈ h.samples := List.mem_of_mem_getLast? hl
    have : 0 ≤ -d * (last.timestamp - t) := by
      have := hts last hmem
      nlinarith
    exact Real.one_le_exp this

theorem addSamples_invariant (points : List (ℝ × ℝ)) :
    ∀ h : DecayingHistogram,
      h.samples.length ≤ h.maxSamples →
      (∀ s ∈ h.samples, 0 < s.importance ∧ s.importance ≤ 1 ∧ 1 ≤ s.weight) →
      (∀ p ∈ points, ∀ s ∈ h.samples, s.timestamp ≤ p.2) →
      List.Pairwise (· ≤ ·) (points.map Prod.snd) →
      (addSamples h points).samples.length ≤ h.maxSamples ∧
        ∀ s ∈ (addSamples h points).samples,
          0 < s.importance ∧ s.importance ≤ 1 ∧ 1 ≤ s.weight := by
  induction points with
  | nil => intro h h1 h2 _ _; exact ⟨h1, h2⟩
  | cons p rest ih =>
    intro h h1 h2 h3 h4
    have hstep : ∀ s ∈ (addSample h p.1 p.2).samples,
        0 < s.importance ∧ s.importance ≤ 1 ∧ 1 ≤ s.weight := by
      intro s hs
      rw [addSample_samples] at hs
      rcases mem_dequeAppend hs with hold | hnew
      · exact h2 s hold
      · subst hnew
        refine ⟨(calculateImportance_bounds h p.1 p.2).1,
          (calculateImportance_bounds h p.1 p.2).2, ?_⟩
        exact one_le_newSampleWeight h _ p.2
          (le_trans (by norm_num) (updateDecayRate_bounds h).1)
          (h3 p (List.mem_cons_self _ _))
    have hts : ∀ q ∈ rest, ∀ s ∈ (addSample h p.1 p.2).samples, s.timestamp ≤ q.2 := by
      intro q hq s hs
      rw [addSample_samples] at hs
      rcases mem_dequeAppend hs with hold | hnew
      · exact h3 q (List.mem_cons_of_mem _ hq) s hold
      · subst hnew
        have : p.2 ≤ q.2 := by
          have := List.pairwise_cons.mp h4
          exact this.1 q.2 (List.mem_map_of_mem Prod.snd hq)
        simpa using this
    have := ih (addSample h p.1 p.2)
      (addSample_length_le h p.1 p.2) hstep hts (List.pairwise_cons.mp h4).2
    rw [addSample_maxSamples] at this
    exact this

/-- C6 (amended): starting from a fresh histogram and inserting samples in
chronological order, every stored sample has importance in (0,1], the
stored count never exceeds the capacity, and every stored weight — the
value `exp(-decay_rate * age)` with `age` the (non-positive) delta from the
new timestamp to the most recently stored one — is at least 1, not at
most 1 as the claim states. -/
theorem C6_histogram_invariants (cap : ℕ) (d0 : ℝ) (points : List (ℝ × ℝ))
    (hchron : List.Chain' (· ≤ ·) (points.map Prod.snd)) :
    (addSamples (DecayingHistogram.init cap d0) points).samples.length ≤ cap ∧
      ∀ s ∈ (addSamples (DecayingHistogram.init cap d0) points).samples,
        0 < s.importance ∧ s.importance ≤ 1 ∧ 1 ≤ s.weight := by
  have := addSamples_invariant points (DecayingHistogram.init cap d0)
    (by simp [DecayingHistogram.init])
    (by simp [DecayingHistogram.init])
    (by simp [DecayingHistogram.init])
    (List.chain'_iff_pairwise.mp hchron)
  simpa [DecayingHistogram.init] using this

/-- C6 witness. -/
theorem C6_histogram_invariants_witness :
    (addSamples (DecayingHistogram.init 1000 0.1) [(5, 0), (5, 1)]).samples.length
        ≤ 1000 ∧
      ∀ s ∈ (addSamples (DecayingHistogram.init 1000 0.1) [(5, 0), (5, 1)]).samples,
        0 < s.importance ∧ s.importance ≤ 1 ∧ 1 ≤ s.weight :=
  C6_histogram_invariants 1000 0.1 [(5, 0), (5, 1)]
    (by norm_num [List.chain'_cons])

/-- C6 counterexample: two chronological insertions with distinct
timestamps give the second stored sample the weight `exp(0.01) > 1`, so the
stored weights are not all in (0,1]. -/
theorem C6_counterexample :
    ((addSamples (DecayingHistogram.init 1000 0.1) [(5, 0), (5, 1)]).samples.map
        Sample.weight) = [1, Real.exp 0.01] ∧ (1 : ℝ) < Real.exp 0.01 := by
  constructor
  · have e1 : addSample (DecayingHistogram.init 1000 0.1) 5 0 =
        ⟨1000, 0.01, [⟨5, 0, 1, 1⟩]⟩ := by
      unfold addSample updateDecayRate calculateVolatility calculateImportance
        newSampleWeight dequeAppend DecayingHistogram.init
      norm_num
    have e2 : addSample (⟨1000, 0.01, [⟨5, 0, 1, 1⟩]⟩ : DecayingHistogram) 5 1 =
        ⟨1000, 0.01, [⟨5, 0, 1, 1⟩, ⟨5, 1, Real.exp 0.01, 0.1⟩]⟩ := by
      unfold addSample updateDecayRate calculateVolatility calculateImportance
        newSampleWeight dequeAppend lastN pyMean
      norm_num
    simp [addSamples, e1, e2]
  · exact Real.one_lt_exp_iff.mpr (by norm_num)

/-- C2: with capacity 2, inserting (4,t=0), (4,t=1), (8,t=2) stores, after
the third insertion, exactly the samples from timestamps 1 and 2 with
importances 0.1 and 1.0 — the deque dropped the oldest sample (t=0, which
by the second conjunct had importance 1.0), not the lowest-importance one
(t=1, importance 0.1), so eviction is by insertion order and the
importance-ranking pruning the claim (and the method's own docstring)
describes never happens. -/
theorem C2_eviction_is_fifo :
    ((addSamples (DecayingHistogram.init 2 0.1) [(4, 0), (4, 1), (8, 2)]).samples.map
        (fun s => (s.timestamp, s.importance))) = [(1, 0.1), (2, 1)] ∧
    ((addSamples (DecayingHistogram.init 2 0.1) [(4, 0), (4, 1)]).samples.map
        (fun s => (s.timestamp, s.importance))) = [(0, 1), (1, 0.1)] := by
  have e1 : addSample (DecayingHistogram.init 2 0.1) 4 0 =
      ⟨2, 0.01, [⟨4, 0, 1, 1⟩]⟩ := by
    unfold addSample updateDecayRate calculateVolatility calculateImportance
      newSampleWeight dequeAppend DecayingHistogram.init
    norm_num
  have e2 : addSample (⟨2, 0.01, [⟨4, 0, 1, 1⟩]⟩ : DecayingHistogram) 4 1 =
      ⟨2, 0.01, [⟨4, 0, 1, 1⟩, ⟨4, 1, Real.exp 0.01, 0.1⟩]⟩ := by
    unfold addSample updateDecayRate calculateVolatility calculateImportance
      newSampleWeight dequeAppend lastN pyMean
    norm_num
  have e3 : addSample
      (⟨2, 0.01, [⟨4, 0, 1, 1⟩, ⟨4, 1, Real.exp 0.01, 0.1⟩]⟩ : DecayingHistogram) 8 2 =
      ⟨2, 0.01, [⟨4, 1, Real.exp 0.01, 0.1⟩, ⟨8, 2, Real.exp 0.01, 1⟩]⟩ := by
    norm_num [addSample, updateDecayRate, calculateVolatility, calculateImportance,
      newSampleWeight, dequeAppend, lastN, pyMean, pyStdev, Real.sqrt_zero]
  constructor
  · simp [addSamples, e1, e2, e3]
  · simp [addSamples, e1, e2]

/-! ### get_quantile properties (C7) -/

theorem cumsum_length (xs : List ℝ) : (cumsum xs).length = xs.length := by
  induction xs with
  | nil => rfl
  | cons x xs ih => simp [cumsum, ih]

theorem cumsum_getD (xs : List ℝ) (i : ℕ) (hi : i < xs.length) :
    (cumsum xs).getD i 0 = (xs.take (i + 1)).sum := by
  induction xs generalizing i with
  | nil => simp at hi
  | cons x xs ih =>
    cases i with
    | zero => simp [cumsum]
    | succ i =>
      have hi' : i < xs.length := by simpa using hi
      have hlen : i < ((cumsum xs).map (x + ·)).length := by
        simpa [cumsum_length] using hi'
      have hlen2 : i < (cumsum xs).length := by simpa [cumsum_length] using hi'
      calc (cumsum (x :: xs)).getD (i + 1) 0
          = ((cumsum xs).map (x + ·)).getD i 0 := by simp [cumsum]
        _ = x + (cumsum xs).getD i 0 := by
            rw [List.getD_eq_getElem _ _ hlen, List.getD_eq_getElem _ _ hlen2]
            simp
        _ = x + (xs.take (i + 1)).sum := by rw [ih i hi']
        _ = ((x :: xs).take (i + 1 + 1)).sum := by simp

theorem sum_take_succ_lt (xs : List ℝ) (hpos : ∀ x ∈ xs, 0 < x) (i : ℕ)
    (hi : i + 1 < xs.length) :
    (xs.take (i + 1)).sum < (xs.take (i + 2)).sum := by
  have hget : xs[i+1]? = some xs[i+1] := List.getElem?_eq_getElem hi
  have : xs.take (i + 2) = xs.take (i + 1) ++ [xs[i+1]] := by
    rw [List.take_succ, hget]; rfl
  rw [this, List.sum_append]
  have := hpos xs[i+1] (List.getElem_mem hi)
  simpa using this

theorem sum_take_lt_of_lt (xs : List ℝ) (hpos : ∀ x ∈ xs, 0 < x) :
    ∀ i j, i < j → j < xs.length →
      (xs.take (i + 1)).sum < (xs.take (j + 1)).sum := by
  intro i j hij hj
  induction j with
  | zero => omega
  | succ j ih =>
    rcases Nat.lt_succ_iff_lt_or_eq.mp hij with h | h
    · exact lt_trans (ih h (by omega)) (sum_take_succ_lt xs hpos j hj)
    · subst h; exact sum_take_succ_lt xs hpos _ hj

theorem cumsum_getD_lt (xs : List ℝ) (hpos : ∀ x ∈ xs, 0 < x) {i j : ℕ}
    (hij : i < j) (hj : j < xs.length) :
    (cumsum xs).getD i 0 < (cumsum xs).getD j 0 := by
  rw [cumsum_getD xs i (lt_trans hij hj), cumsum_getD xs j hj]
  exact sum_take_lt_of_lt xs hpos i j hij hj

theorem cumsum_getD_pos (xs : List ℝ) (hpos : ∀ x ∈ xs, 0 < x) {i : ℕ}
    (hi : i < xs.length) : 0 < (cumsum xs).getD i 0 := by
  rw [cumsum_getD xs i hi]
  refine List.sum_pos _ (fun x hx => hpos x (List.mem_of_mem_take hx)) ?_
  have : (xs.take (i + 1)).length = i + 1 := by
    rw [List.length_take]; omega
  intro hn
  rw [hn] at this
  simp at this

theorem cumsum_getD_last (xs : List ℝ) (hne : xs ≠ []) :
    (cumsum xs).getD (xs.length - 1) 0 = xs.sum := by
  have hlen : 0 < xs.length := List.length_pos.mpr hne
  rw [cumsum_getD xs _ (by omega)]
  have : xs.length - 1 + 1 = xs.length := by omega
  rw [this, List.take_length]

theorem cumsum_sorted (xs : List ℝ) (hpos : ∀ x ∈ xs, 0 < x) :
    List.Sorted (· ≤ ·) (cumsum xs) := by
  rw [List.Sorted, List.pairwise_iff_get]
  intro i j hij
  have hj : (j : ℕ) < xs.length := by
    have := j.isLt; simpa [cumsum_length] using this
  have hi : (i : ℕ) < (cumsum xs).length := i.isLt
  have hj' : (j : ℕ) < (cumsum xs).length := j.isLt
  rw [List.get_eq_getElem, List.get_eq_getElem,
    ← List.getD_eq_getElem (cumsum xs) 0 hi, ← List.getD_eq_getElem (cumsum xs) 0 hj']
  exact le_of_lt (cumsum_getD_lt xs hpos hij hj)

theorem mem_pos_of_cumsum (xs : List ℝ) (hpos : ∀ x ∈ xs, 0 < x) :
    ∀ a ∈ cumsum xs, 0 < a := by
  intro a ha
  obtain ⟨n, hn⟩ := List.mem_iff_get.mp ha
  have hlt : (n : ℕ) < xs.length := by
    have := n.isLt; simpa [cumsum_length] using this
  rw [← hn, List.get_eq_getElem, ← List.getD_eq_getElem (cumsum xs) 0 n.isLt]
  exact cumsum_getD_pos xs hpos hlt

theorem countP_lt_char (l : List ℝ) (hl : List.Sorted (· ≤ ·) l) (q : ℝ) :
    (∀ i < l.countP (fun c => decide (c < q)), l.getD i 0 < q) ∧
      (∀ i, l.countP (fun c => decide (c < q)) ≤ i → i < l.length →
        q ≤ l.getD i 0) := by
  induction l with
  | nil => simp
  | cons x xs ih =>
    have hcons := List.sorted_cons.mp hl
    have ihx := ih hcons.2
    by_cases hx : x < q
    · rw [List.countP_cons_of_pos _ _ (by simpa using hx)]
      constructor
      · intro i hi
        cases i with
        | zero => simpa using hx
        | succ i =>
          have : i < xs.countP (fun c => decide (c < q)) := by omega
          simpa using ihx.1 i this
      · intro i hcount hlen
        cases i with
        | zero => omega
        | succ i =>
          have h1 : xs.countP (fun c => decide (c < q)) ≤ i := by omega
          have h2 : i < xs.length := by simpa using hlen
          simpa using ihx.2 i h1 h2
    · have hq_le : q ≤ x := not_lt.mp hx
      have hcount : (x :: xs).countP (fun c => decide (c < q)) = 0 := by
        rw [List.countP_eq_zero]
        intro a ha
        simp only [decide_eq_true_eq, not_lt]
        rcases List.mem_cons.mp ha with rfl | ha
        · exact hq_le
        · exact le_trans hq_le (hcons.1 a ha)
      rw [hcount]
      refine ⟨fun i hi => absurd hi (by omega), fun i _ hlen => ?_⟩
      cases i with
      | zero => simpa using hq_le
      | succ i =>
        have h2 : i < xs.length := by simpa using hlen
        have hmem : xs.getD i 0 ∈ xs := by
          rw [List.getD_eq_getElem _ _ h2]
          exact List.getElem_mem h2
        simpa using le_trans hq_le (hcons.1 _ hmem)

theorem sorted_getD_mono (l : List ℝ) (hl : List.Sorted (· ≤ ·) l) {i j : ℕ}
    (hij : i ≤ j) (hj : j < l.length) : l.getD i 0 ≤ l.getD j 0 := by
  rcases eq_or_lt_of_le hij with rfl | hlt
  · exact le_refl _
  · rw [List.getD_eq_getElem _ _ (lt_trans hlt hj), List.getD_eq_getElem _ _ hj]
    have := List.pairwise_iff_get.mp hl ⟨i, lt_trans hlt hj⟩ ⟨j, hj⟩ hlt
    simpa using this

theorem searchsortedLeft_le_length (xs : List ℝ) (q : ℝ) :
    searchsortedLeft xs q ≤ xs.length := List.countP_le_length _

theorem searchsortedLeft_mono (xs : List ℝ) {q q' : ℝ} (h : q ≤ q') :
    searchsortedLeft xs q ≤ searchsortedLeft xs q' := by
  refine List.countP_mono_left (fun c _ hc => ?_)
  simp only [decide_eq_true_eq] at hc ⊢
  exact lt_of_lt_of_le hc h

theorem quantileCore_of_idx_zero (values cw : List ℝ) (q : ℝ)
    (h : searchsortedLeft cw q = 0) :
    quantileCore values cw q = values.getD 0 0 := by
  unfold quantileCore; dsimp only; rw [if_pos h]

theorem quantileCore_of_idx_length (values cw : List ℝ) (q : ℝ)
    (h0 : searchsortedLeft cw q ≠ 0) (h : searchsortedLeft cw q = values.length) :
    quantileCore values cw q = values.getD (values.length - 1) 0 := by
  unfold quantileCore; dsimp only; rw [if_neg h0, if_pos h]

theorem quantileCore_middle (values cw : List ℝ) (q : ℝ)
    (h0 : searchsortedLeft cw q ≠ 0)
    (hlen : searchsortedLeft cw q ≠ values.length)
    (hne : ¬ cw.getD (searchsortedLeft cw q) 0 = cw.getD (searchsortedLeft cw q - 1) 0) :
    quantileCore values cw q =
      values.getD (searchsortedLeft cw q - 1) 0 +
        (q - cw.getD (searchsortedLeft cw q - 1) 0) /
            (cw.getD (searchsortedLeft cw q) 0 - cw.getD (searchsortedLeft cw q - 1) 0) *
          (values.getD (searchsortedLeft cw q) 0 - values.getD (searchsortedLeft cw q - 1) 0) := by
  unfold quantileCore; dsimp only; rw [if_neg h0, if_neg hlen, if_neg hne]

theorem quantileCore_between (values ws : List ℝ) (q : ℝ)
    (hv : List.Sorted (· ≤ ·) values) (hw : ∀ x ∈ ws, 0 < x)
    (hlen : ws.length = values.length)
    (h0 : 0 < searchsortedLeft (cumsum ws) q)
    (hn : searchsortedLeft (cumsum ws) q < values.length) :
    values.getD (searchsortedLeft (cumsum ws) q - 1) 0
        ≤ quantileCore values (cumsum ws) q ∧
      quantileCore values (cumsum ws) q
        ≤ values.getD (searchsortedLeft (cumsum ws) q) 0 := by
  have hchar := countP_lt_char (cumsum ws) (cumsum_sorted ws hw) q
  have hcwlen : (cumsum ws).length = ws.length := cumsum_length ws
  have hidx_eq : searchsortedLeft (cumsum ws) q
      = (cumsum ws).countP (fun c => decide (c < q)) := rfl
  have hq1 : (cumsum ws).getD (searchsortedLeft (cumsum ws) q - 1) 0 < q := by
    refine hchar.1 _ ?_
    omega
  have hq2 : q ≤ (cumsum ws).getD (searchsortedLeft (cumsum ws) q) 0 := by
    refine hchar.2 _ (by omega) (by omega)
  have hwblt : (cumsum ws).getD (searchsortedLeft (cumsum ws) q - 1) 0
      < (cumsum ws).getD (searchsortedLeft (cumsum ws) q) 0 :=
    cumsum_getD_lt ws hw (by omega) (by omega)
  have hvbva : values.getD (searchsortedLeft (cumsum ws) q - 1) 0
      ≤ values.getD (searchsortedLeft (cumsum ws) q) 0 :=
    sorted_getD_mono values hv (by omega) hn
  rw [quantileCore_middle values (cumsum ws) q (by omega) (by omega)
    (ne_of_gt hwblt)]
  set wb := (cumsum ws).getD (searchsortedLeft (cumsum ws) q - 1) 0
  set wa := (cumsum ws).getD (searchsortedLeft (cumsum ws) q) 0
  set vb := values.getD (searchsortedLeft (cumsum ws) q - 1) 0
  set va := values.getD (searchsortedLeft (cumsum ws) q) 0
  have ht0 : 0 ≤ (q - wb) / (wa - wb) :=
    div_nonneg (by linarith) (by linarith)
  have ht1 : (q - wb) / (wa - wb) ≤ 1 :=
    (div_le_one (by linarith)).mpr (by linarith)
  constructor
  · nlinarith [mul_nonneg ht0 (sub_nonneg.mpr hvbva)]
  · nlinarith [mul_le_of_le_one_left (sub_nonneg.mpr hvbva) ht1]

theorem quantileCore_le_upper (values ws : List ℝ) (q : ℝ)
    (hv : List.Sorted (· ≤ ·) values) (hw : ∀ x ∈ ws, 0 < x)
    (hlen : ws.length = values.length) (hvne : values ≠ []) :
    quantileCore values (cumsum ws) q
      ≤ values.getD (min (searchsortedLeft (cumsum ws) q) (values.length - 1)) 0 := by
  have hnpos : 0 < values.length := List.length_pos.mpr hvne
  have hle : searchsortedLeft (cumsum ws) q ≤ values.length := by
    have := searchsortedLeft_le_length (cumsum ws) q
    rw [cumsum_length, hlen] at this
    exact this
  rcases Nat.eq_zero_or_pos (searchsortedLeft (cumsum ws) q) with h0 | h0
  · rw [quantileCore_of_idx_zero values _ q h0, h0]
    simp
  · rcases eq_or_lt_of_le hle with heq | hlt
    · rw [quantileCore_of_idx_length values _ q (by omega) heq, heq]
      simp
    · have := (quantileCore_between values ws q hv hw hlen h0 hlt).2
      have hmin : min (searchsortedLeft (cumsum ws) q) (values.length - 1)
          = searchsortedLeft (cumsum ws) q := by omega
      rw [hmin]
      exact this

theorem quantileCore_ge_lower (values ws : List ℝ) (q : ℝ)
    (hv : List.Sorted (· ≤ ·) values) (hw : ∀ x ∈ ws, 0 < x)
    (hlen : ws.length = values.length) (hvne : values ≠ [])
    (h0 : 0 < searchsortedLeft (cumsum ws) q) :
    values.getD (searchsortedLeft (cumsum ws) q - 1) 0
      ≤ quantileCore values (cumsum ws) q := by
  have hnpos : 0 < values.length := List.length_pos.mpr hvne
  have hle : searchsortedLeft (cumsum ws) q ≤ values.length := by
    have := searchsortedLeft_le_length (cumsum ws) q
    rw [cumsum_length, hlen] at this
    exact this
  rcases eq_or_lt_of_le hle with heq | hlt
  · rw [quantileCore_of_idx_length values _ q (by omega) heq, heq]
  · exact (quantileCore_between values ws q hv hw hlen h0 hlt).1

theorem quantileCore_mono (values ws : List ℝ)
    (hv : List.Sorted (· ≤ ·) values) (hw : ∀ x ∈ ws, 0 < x)
    (hlen : ws.length = values.length) (hvne : values ≠ [])
    {q q' : ℝ} (hqq : q ≤ q') :
    quantileCore values (cumsum ws) q ≤ quantileCore values (cumsum ws) q' := by
  have hnpos : 0 < values.length := List.length_pos.mpr hvne
  have hmono : searchsortedLeft (cumsum ws) q ≤ searchsortedLeft (cumsum ws) q' :=
    searchsortedLeft_mono _ hqq
  have hle : searchsortedLeft (cumsum ws) q' ≤ values.length := by
    have := searchsortedLeft_le_length (cumsum ws) q'
    rw [cumsum_length, hlen] at this
    exact this
  rcases eq_or_lt_of_le hmono with heq | hlt
  · rcases Nat.eq_zero_or_pos (searchsortedLeft (cumsum ws) q) with h0 | h0
    · rw [quantileCore_of_idx_zero values _ q h0,
        quantileCore_of_idx_zero values _ q' (by omega)]
    · rcases eq_or_lt_of_le (le_trans (le_of_eq heq) hle) with hq_len | hq_len
      · rw [quantileCore_of_idx_length values _ q (by omega) hq_len,
          quantileCore_of_idx_length values _ q' (by omega) (by omega)]
      · have hchar := countP_lt_char (cumsum ws) (cumsum_sorted ws hw) q
        have hwblt : (cumsum ws).getD (searchsortedLeft (cumsum ws) q - 1) 0
            < (cumsum ws).getD (searchsortedLeft (cumsum ws) q) 0 := by
          refine cumsum_getD_lt ws hw (by omega) (by omega)
        have hvbva : values.getD (searchsortedLeft (cumsum ws) q - 1) 0
            ≤ values.getD (searchsortedLeft (cumsum ws) q) 0 :=
          sorted_getD_mono values hv (by omega) hq_len
        rw [quantileCore_middle values (cumsum ws) q (by omega) (by omega)
            (ne_of_gt hwblt),
          quantileCore_middle values (cumsum ws) q' (by omega) (by omega)
            (by rw [← heq]; exact ne_of_gt hwblt)]
        rw [← heq]
        have hdivle : (q - (cumsum ws).getD (searchsortedLeft (cumsum ws) q - 1) 0)
              / ((cumsum ws).getD (searchsortedLeft (cumsum ws) q) 0
                  - (cumsum ws).getD (searchsortedLeft (cumsum ws) q - 1) 0)
            ≤ (q' - (cumsum ws).getD (searchsortedLeft (cumsum ws) q - 1) 0)
              / ((cumsum ws).getD (searchsortedLeft (cumsum ws) q) 0
                  - (cumsum ws).getD (searchsortedLeft (cumsum ws) q - 1) 0) := by
          apply div_le_div_of_nonneg_right ?_ (by linarith)
          · linarith
        have := mul_le_mul_of_nonneg_right hdivle (sub_nonneg.mpr hvbva)
        linarith
  · have hupper := quantileCore_le_upper values ws q hv hw hlen hvne
    have hlower := quantileCore_ge_lower values ws q' hv hw hlen hvne (by omega)
    refine le_trans hupper (le_trans ?_ hlower)
    refine sorted_getD_mono values hv (by omega) (by omega)

theorem quantileCore_zero_eq (values ws : List ℝ) (hw : ∀ x ∈ ws, 0 < x) :
    quantileCore values (cumsum ws) 0 = values.getD 0 0 := by
  refine quantileCore_of_idx_zero values _ 0 ?_
  unfold searchsortedLeft
  rw [List.countP_eq_zero]
  intro a ha
  simp only [decide_eq_true_eq, not_lt]
  exact le_of_lt (mem_pos_of_cumsum ws hw a ha)

theorem quantileCore_one_eq (values ws : List ℝ)
    (hv : List.Sorted (· ≤ ·) values) (hw : ∀ x ∈ ws, 0 < x)
    (hlen : ws.length = values.length) (hvne : values ≠ [])
    (hsum : ws.sum = 1) :
    quantileCore values (cumsum ws) 1 = values.getD (values.length - 1) 0 := by
  have hnpos : 0 < values.length := List.length_pos.mpr hvne
  have hwsne : ws ≠ [] := by
    intro h
    rw [h] at hlen
    simp only [List.length_nil] at hlen
    omega
  have hlast : (cumsum ws).getD (values.length - 1) 0 = 1 := by
    have := cumsum_getD_last ws hwsne
    rw [hsum] at this
    rw [← hlen]
    exact this
  have hchar := countP_lt_char (cumsum ws) (cumsum_sorted ws hw) (1 : ℝ)
  have hcwlen : (cumsum ws).length = values.length := by
    rw [cumsum_length, hlen]
  have hidx_eq : searchsortedLeft (cumsum ws) 1
      = (cumsum ws).countP (fun c => decide (c < 1)) := rfl
  have hle : searchsortedLeft (cumsum ws) 1 ≤ values.length := by
    have := searchsortedLeft_le_length (cumsum ws) 1
    omega
  have hne_n : searchsortedLeft (cumsum ws) 1 ≠ values.length := by
    intro h
    have := hchar.1 (values.length - 1) (by omega)
    rw [hlast] at this
    exact lt_irrefl _ this
  have hge : values.length - 1 ≤ searchsortedLeft (cumsum ws) 1 := by
    by_contra hcon
    push_neg at hcon
    have h1 : (1 : ℝ) ≤ (cumsum ws).getD (searchsortedLeft (cumsum ws) 1) 0 :=
      hchar.2 _ (by omega) (by omega)
    have h2 : (cumsum ws).getD (searchsortedLeft (cumsum ws) 1) 0
        < (cumsum ws).getD (values.length - 1) 0 :=
      cumsum_getD_lt ws hw (by omega) (by omega)
    rw [hlast] at h2
    linarith
  have hidx : searchsortedLeft (cumsum ws) 1 = values.length - 1 := by omega
  rcases Nat.lt_or_ge 1 values.length with h2 | h1
  · have hwblt : (cumsum ws).getD (searchsortedLeft (cumsum ws) 1 - 1) 0
        < (cumsum ws).getD (searchsortedLeft (cumsum ws) 1) 0 :=
      cumsum_getD_lt ws hw (by omega) (by omega)
    rw [quantileCore_middle values (cumsum ws) 1 (by omega) (by omega)
      (ne_of_gt hwblt)]
    have hwa : (cumsum ws).getD (searchsortedLeft (cumsum ws) 1) 0 = 1 := by
      rw [hidx]; exact hlast
    rw [hwa] at hwblt ⊢
    have hbq : (1 - (cumsum ws).getD (searchsortedLeft (cumsum ws) 1 - 1) 0)
        / (1 - (cumsum ws).getD (searchsortedLeft (cumsum ws) 1 - 1) 0) = 1 :=
      div_self (by linarith)
    rw [hbq, hidx]
    ring
  · have hn1 : values.length = 1 := by omega
    have hidx0 : searchsortedLeft (cumsum ws) 1 = 0 := by omega
    rw [quantileCore_of_idx_zero values _ 1 hidx0, hn1]

/-! Packaging get_quantile facts at the level of sample lists. -/

theorem getWeights_facts (samples : List Sample) (hne : samples ≠ [])
    (hpos : ∀ s ∈ samples, 0 < s.weight * s.importance) :
    (∀ x ∈ getWeights samples, 0 < x) ∧ (getWeights samples).sum = 1 ∧
      (getWeights samples).length = samples.length := by
  unfold getWeights
  dsimp only
  have hws_pos : ∀ x ∈ samples.map (fun s => s.weight * s.importance), 0 < x := by
    intro x hx
    obtain ⟨s, hs, rfl⟩ := List.mem_map.mp hx
    exact hpos s hs
  have hsum_pos : 0 < (samples.map fun s => s.weight * s.importance).sum := by
    refine List.sum_pos _ hws_pos ?_
    simpa using hne
  rw [if_pos hsum_pos]
  refine ⟨?_, ?_, by simp⟩
  · intro x hx
    obtain ⟨y, hy, rfl⟩ := List.mem_map.mp hx
    exact div_pos (hws_pos y hy) hsum_pos
  · rw [show (fun x => x / (samples.map fun s => s.weight * s.importance).sum)
        = (fun x => x * ((samples.map fun s => s.weight * s.importance).sum)⁻¹) by
      funext x; rw [div_eq_mul_inv]]
    rw [List.sum_map_mul_right, List.map_id', mul_inv_cancel₀ (ne_of_gt hsum_pos)]

theorem svw_perm (samples : List Sample) :
    (sortedValueWeights samples).Perm
      ((samples.map Sample.value).zip (getWeights samples)) :=
  List.mergeSort_perm _ _

theorem svw_fst_sorted (samples : List Sample) :
    List.Sorted (· ≤ ·) ((sortedValueWeights samples).map Prod.fst) := by
  have hp := @List.sorted_mergeSort (ℝ × ℝ)
    (fun a b => decide (a.1 ≤ b.1))
    (fun a b c hab hbc => by
      simp only [decide_eq_true_eq] at hab hbc ⊢
      exact le_trans hab hbc)
    (fun a b => by
      simp only [Bool.or_eq_true, decide_eq_true_eq]
      exact le_total a.1 b.1)
    ((samples.map Sample.value).zip (getWeights samples))
  rw [List.Sorted, List.pairwise_map]
  exact hp.imp (fun hab => by simpa using hab)

theorem addSamples_pos_aux (pts : List (ℝ × ℝ)) :
    ∀ h0 : DecayingHistogram,
      (∀ s ∈ h0.samples, 0 < s.weight ∧ 0 < s.importance) →
      ∀ s ∈ (addSamples h0 pts).samples, 0 < s.weight ∧ 0 < s.importance := by
  induction pts with
  | nil => intro h0 hh s hs; exact hh s hs
  | cons p rest ih =>
    intro h0 hh
    refine ih (addSample h0 p.1 p.2) ?_
    intro s hs
    rw [addSample_samples] at hs
    rcases mem_dequeAppend hs with hold | hnew
    · exact hh s hold
    · subst hnew
      exact ⟨newSampleWeight_pos h0 _ p.2, (calculateImportance_bounds h0 p.1 p.2).1⟩

/-- C7: on every non-empty reachable stored state of the estimator,
`get_quantile` is non-decreasing in `q`, `get_quantile(0.0)` is the minimum
stored sample value and `get_quantile(1.0)` the maximum (membership plus
the corresponding bound). -/
theorem C7_quantile_monotone_min_max (hist : DecayingHistogram)
    (hreach : ∃ cap d0 pts,
      hist = addSamples (DecayingHistogram.init cap d0) pts)
    (hne : hist.samples ≠ []) :
    (∀ q q', q ≤ q' →
      getQuantile hist.samples q ≤ getQuantile hist.samples q') ∧
    (getQuantile hist.samples 0 ∈ hist.samples.map Sample.value ∧
      ∀ v ∈ hist.samples.map Sample.value, getQuantile hist.samples 0 ≤ v) ∧
    (getQuantile hist.samples 1 ∈ hist.samples.map Sample.value ∧
      ∀ v ∈ hist.samples.map Sample.value, v ≤ getQuantile hist.samples 1) := by
  classical
  have hpos : ∀ s ∈ hist.samples, 0 < s.weight ∧ 0 < s.importance := by
    obtain ⟨cap, d0, pts, rfl⟩ := hreach
    exact addSamples_pos_aux pts _ (by simp [DecayingHistogram.init])
  have hprod : ∀ s ∈ hist.samples, 0 < s.weight * s.importance := fun s hs =>
    mul_pos (hpos s hs).1 (hpos s hs).2
  obtain ⟨hgw_pos, hgw_sum, hgw_len⟩ := getWeights_facts hist.samples hne hprod
  have hvals_len : (hist.samples.map Sample.value).length = hist.samples.length := by
    simp
  have hzip_fst : ((hist.samples.map Sample.value).zip
      (getWeights hist.samples)).map Prod.fst = hist.samples.map Sample.value :=
    List.map_fst_zip _ _ (by rw [hvals_len, hgw_len])
  have hzip_snd : ((hist.samples.map Sample.value).zip
      (getWeights hist.samples)).map Prod.snd = getWeights hist.samples :=
    List.map_snd_zip _ _ (by rw [hvals_len, hgw_len])
  have hperm := svw_perm hist.samples
  have hfst_perm : ((sortedValueWeights hist.samples).map Prod.fst).Perm
      (hist.samples.map Sample.value) := by
    have := hperm.map Prod.fst
    rwa [hzip_fst] at this
  have hsnd_perm : ((sortedValueWeights hist.samples).map Prod.snd).Perm
      (getWeights hist.samples) := by
    have := hperm.map Prod.snd
    rwa [hzip_snd] at this
  have hq_eq : ∀ q, getQuantile hist.samples q =
      quantileCore ((sortedValueWeights hist.samples).map Prod.fst)
        (cumsum ((sortedValueWeights hist.samples).map Prod.snd)) q := by
    intro q
    unfold getQuantile
    rw [if_neg (by simpa [List.isEmpty_iff] using hne)]
  set values := (sortedValueWeights hist.samples).map Prod.fst with hvdef
  set ws := (sortedValueWeights hist.samples).map Prod.snd with hwdef
  have hv : List.Sorted (· ≤ ·) values := svw_fst_sorted hist.samples
  have hw : ∀ x ∈ ws, 0 < x := fun x hx => hgw_pos x (hsnd_perm.mem_iff.mp hx)
  have hsum : ws.sum = 1 := by rw [hsnd_perm.sum_eq, hgw_sum]
  have hlenvw : ws.length = values.length := by simp [hvdef, hwdef]
  have hlv : values.length = hist.samples.length := by
    rw [hfst_perm.length_eq, hvals_len]
  have hvne : values ≠ [] := by
    intro h
    apply hne
    apply List.length_eq_zero.mp
    rw [← hlv, h]
    rfl
  have hnpos : 0 < values.length := List.length_pos.mpr hvne
  refine ⟨?_, ⟨?_, ?_⟩, ⟨?_, ?_⟩⟩
  · intro q q' hqq
    rw [hq_eq q, hq_eq q']
    exact quantileCore_mono values ws hv hw hlenvw hvne hqq
  · rw [hq_eq 0, quantileCore_zero_eq values ws hw]
    refine hfst_perm.mem_iff.mp ?_
    rw [List.getD_eq_getElem _ _ hnpos]
    exact List.getElem_mem hnpos
  · intro v hvv
    rw [hq_eq 0, quantileCore_zero_eq values ws hw]
    obtain ⟨i, hi⟩ := List.mem_iff_get.mp (hfst_perm.mem_iff.mpr hvv)
    rw [← hi, List.get_eq_getElem, ← List.getD_eq_getElem values 0 i.isLt]
    exact sorted_getD_mono values hv (Nat.zero_le _) i.isLt
  · rw [hq_eq 1, quantileCore_one_eq values ws hv hw hlenvw hvne hsum]
    refine hfst_perm.mem_iff.mp ?_
    rw [List.getD_eq_getElem _ _ (by omega)]
    exact List.getElem_mem (by omega)
  · intro v hvv
    rw [hq_eq 1, quantileCore_one_eq values ws hv hw hlenvw hvne hsum]
    obtain ⟨i, hi⟩ := List.mem_iff_get.mp (hfst_perm.mem_iff.mpr hvv)
    rw [← hi, List.get_eq_getElem, ← List.getD_eq_getElem values 0 i.isLt]
    refine sorted_getD_mono values hv ?_ (by omega)
    have := i.isLt
    omega

/-! ### Strategy floor properties (C9, C10) -/

theorem timeAware_cpu_ge (cfg : RecommendationConfig) (hourOf dayOf : ℝ → ℤ)
    (samples : List ℝ) (ts : Option (List ℝ)) :
    cfg.minCpuCores ≤ timeAwareCalculateCpuRequest cfg hourOf dayOf samples ts := by
  unfold timeAwareCalculateCpuRequest
  try dsimp only
  split_ifs <;> first | exact le_refl _ | exact le_max_right _ _

theorem timeAware_mem_ge (cfg : RecommendationConfig) (hourOf dayOf : ℝ → ℤ)
    (samples : List ℝ) (ts : Option (List ℝ)) :
    cfg.minMemoryBytes ≤ timeAwareCalculateMemoryRequest cfg hourOf dayOf samples ts := by
  unfold timeAwareCalculateMemoryRequest
  try dsimp only
  split_ifs <;> first | exact le_refl _ | exact le_max_right _ _

theorem trendAware_cpu_ge (cfg : RecommendationConfig)
    (samples : List ℝ) (ts : Option (List ℝ)) :
    cfg.minCpuCores ≤ trendAwareCalculateCpuRequest cfg samples ts := by
  unfold trendAwareCalculateCpuRequest
  try dsimp only
  split_ifs <;> first | exact le_refl _ | exact le_max_right _ _

theorem trendAware_mem_ge (cfg : RecommendationConfig)
    (samples : List ℝ) (ts : Option (List ℝ)) :
    cfg.minMemoryBytes ≤ trendAwareCalculateMemoryRequest cfg samples ts := by
  unfold trendAwareCalculateMemoryRequest
  try dsimp only
  split_ifs <;> first | exact le_refl _ | exact le_max_right _ _

theorem workloadAware_cpu_ge (cfg : RecommendationConfig)
    (samples : List ℝ) (ts : Option (List ℝ)) :
    cfg.minCpuCores ≤ workloadAwareCalculateCpuRequest cfg samples ts := by
  unfold workloadAwareCalculateCpuRequest
  try dsimp only
  split_ifs
  · exact le_refl _
  · rcases detectWorkloadType cfg samples ts <;> exact le_max_right _ _

theorem workloadAware_mem_ge (cfg : RecommendationConfig)
    (samples : List ℝ) (ts : Option (List ℝ)) :
    cfg.minMemoryBytes ≤ workloadAwareCalculateMemoryRequest cfg samples ts := by
  unfold workloadAwareCalculateMemoryRequest
  try dsimp only
  split_ifs
  · exact le_refl _
  · rcases detectWorkloadType cfg samples ts <;> exact le_max_right _ _

theorem adaptive_cpu_ge (cfg : RecommendationConfig)
    (samples : List ℝ) (ts : Option (List ℝ)) :
    cfg.minCpuCores ≤ adaptiveCalculateCpuRequest cfg samples ts := by
  unfold adaptiveCalculateCpuRequest
  try dsimp only
  split_ifs <;> first | exact le_refl _ | exact le_max_right _ _

theorem adaptive_mem_ge (cfg : RecommendationConfig)
    (samples : List ℝ) (ts : Option (List ℝ)) :
    cfg.minMemoryBytes ≤ adaptiveCalculateMemoryRequest cfg samples ts := by
  unfold adaptiveCalculateMemoryRequest
  try dsimp only
  split_ifs <;> first | exact le_refl _ | exact le_max_right _ _

theorem movingAverage_cpu_ge (cfg : RecommendationConfig) (tcrit : ℝ → ℝ → ℝ)
    (samples : List ℝ) (ts : Option (List ℝ)) (v : ℝ)
    (h : movingAverageCalculateCpuRequest cfg tcrit samples ts = some v) :
    cfg.minCpuCores ≤ v := by
  unfold movingAverageCalculateCpuRequest at h
  split_ifs at h
  · simp only [Option.some.injEq] at h
    exact le_of_eq h
  · rcases hpi : predictionInterval tcrit samples 0.95 with _ | pi2 <;>
      simp only [hpi, Option.some.injEq, reduceCtorEq] at h
    rw [← h]
    exact le_max_right _ _

theorem movingAverage_mem_ge (cfg : RecommendationConfig) (tcrit : ℝ → ℝ → ℝ)
    (samples : List ℝ) (ts : Option (List ℝ)) (v : ℝ)
    (h : movingAverageCalculateMemoryRequest cfg tcrit samples ts = some v) :
    cfg.minMemoryBytes ≤ v := by
  unfold movingAverageCalculateMemoryRequest at h
  split_ifs at h
  · simp only [Option.some.injEq] at h
    exact le_of_eq h
  · rcases hpi : predictionInterval tcrit samples 0.99 with _ | pi2 <;>
      simp only [hpi, Option.some.injEq, reduceCtorEq] at h
    rw [← h]
    exact le_max_right _ _

theorem pmdarima_cpu_ge (cfg : RecommendationConfig)
    (fitPredict : List ℝ → List ℝ → Option (ℝ × ℝ))
    (samples : List ℝ) (ts : Option (List ℝ)) :
    cfg.minCpuCores ≤ pmdarimaCalculateCpuRequest cfg fitPredict samples ts := by
  unfold pmdarimaCalculateCpuRequest
  try dsimp only
  split_ifs
  · exact le_refl _
  · rcases fitPredict samples (ts.getD []) <;> exact le_max_right _ _

theorem pmdarima_mem_ge (cfg : RecommendationConfig)
    (fitPredict : List ℝ → List ℝ → Option (ℝ × ℝ))
    (samples : List ℝ) (ts : Option (List ℝ)) :
    cfg.minMemoryBytes ≤ pmdarimaCalculateMemoryRequest cfg fitPredict samples ts := by
  unfold pmdarimaCalculateMemoryRequest
  try dsimp only
  split_ifs
  · exact le_refl _
  · rcases fitPredict samples (ts.getD []) <;> exact le_max_right _ _

theorem prophet_cpu_ge (cfg : RecommendationConfig)
    (fitPredict : Option (Except String ℝ))
    (samples : List ℝ) (ts : Option (List ℝ)) :
    cfg.minCpuCores ≤ prophetCalculateCpuRequest cfg fitPredict samples ts := by
  unfold prophetCalculateCpuRequest
  try dsimp only
  split_ifs
  · exact le_refl _
  · rcases fitPredict with _ | e
    · exact le_max_right _ _
    · rcases e <;> exact le_max_right _ _

theorem prophet_mem_ge (cfg : RecommendationConfig)
    (fitPredict : Option (Except String ℝ))
    (samples : List ℝ) (ts : Option (List ℝ)) :
    cfg.minMemoryBytes ≤ prophetCalculateMemoryRequest cfg fitPredict samples ts := by
  unfold prophetCalculateMemoryRequest
  try dsimp only
  split_ifs
  · exact le_refl _
  · rcases fitPredict with _ | e
    · exact le_max_right _ _
    · rcases e <;> exact le_max_right _ _

theorem quantileRegression_cpu_ge (cfg : RecommendationConfig)
    (fitPredict : List ℝ → List ℝ → ℝ → Except String ℝ)
    (samples : List ℝ) (ts : Option (List ℝ)) (v : ℝ)
    (h : quantileRegressionCalculateCpuRequest cfg fitPredict samples ts = .ok v) :
    cfg.minCpuCores ≤ v := by
  unfold quantileRegressionCalculateCpuRequest at h
  split_ifs at h
  · simp only [Except.ok.injEq] at h
    exact le_of_eq h
  · rcases h50 : fitPredict (ts.getD []) samples 0.50 with e | p50 <;>
      rcases h75 : fitPredict (ts.getD []) samples 0.75 with e2 | p75 <;>
      rcases h95 : fitPredict (ts.getD []) samples 0.95 with e3 | p95 <;>
      simp_all [Bind.bind, Except.bind, Pure.pure, Except.pure] <;>
      simp [← h, le_max_right]

theorem quantileRegression_mem_ge (cfg : RecommendationConfig)
    (fitPredict : List ℝ → List ℝ → ℝ → Except String ℝ)
    (samples : List ℝ) (ts : Option (List ℝ)) (v : ℝ)
    (h : quantileRegressionCalculateMemoryRequest cfg fitPredict samples ts = .ok v) :
    cfg.minMemoryBytes ≤ v := by
  unfold quantileRegressionCalculateMemoryRequest at h
  split_ifs at h
  · simp only [Except.ok.injEq] at h
    exact le_of_eq h
  · rcases h75 : fitPredict (ts.getD []) samples 0.75 with e | p75 <;>
      rcases h95 : fitPredict (ts.getD []) samples 0.95 with e2 | p95 <;>
      rcases h99 : fitPredict (ts.getD []) samples 0.99 with e3 | p99 <;>
      simp_all [Bind.bind, Except.bind, Pure.pure, Except.pure] <;>
      simp [← h, le_max_right]

theorem basic_cpu_ge (cfg : RecommendationConfig) (st : BasicState)
    (samples : List ℝ) (ts : Option (List ℝ)) (v : ℝ)
    (h : basicCalculateCpuRequest cfg st samples ts = .ok v) :
    cfg.minCpuCores ≤ v := by
  unfold basicCalculateCpuRequest at h
  split_ifs at h
  · simp only [Except.ok.injEq] at h
    exact le_of_eq h
  · rcases hc : basicConfidenceFactor
        (addSamples st.cpuHistogram (samples.zip (ts.getD []))).maxSamples
        (addSamples st.cpuHistogram (samples.zip (ts.getD []))).samples with e | c <;>
      simp_all [Except.map] <;> simp [← h, le_max_right]

theorem basic_mem_ge (cfg : RecommendationConfig) (st : BasicState)
    (samples : List ℝ) (ts : Option (List ℝ)) (v : ℝ)
    (h : basicCalculateMemoryRequest cfg st samples ts = .ok v) :
    cfg.minMemoryBytes ≤ v := by
  unfold basicCalculateMemoryRequest at h
  split_ifs at h
  · simp only [Except.ok.injEq] at h
    exact le_of_eq h
  · rcases hc : basicConfidenceFactor st.cpuHistogram.maxSamples
        (addSamples st.memoryHistogram (samples.zip (ts.getD []))).samples with e | c <;>
      simp_all [Except.map] <;> simp [← h, le_max_right]

theorem ensemble_cpu_ge (cfg : RecommendationConfig) (st : BasicState)
    (o : EnsembleOracles) (samples : List ℝ) (ts : Option (List ℝ)) (v : ℝ)
    (h : ensembleCalculateCpuRequest cfg st o samples ts = some v) :
    cfg.minCpuCores ≤ v := by
  unfold ensembleCalculateCpuRequest at h
  split_ifs at h
  · simp only [Option.some.injEq] at h
    exact le_of_eq h
  · rcases hma : movingAverageCalculateCpuRequest cfg o.tcrit samples ts
        with _ | maP <;>
      simp only [hma, Option.some.injEq, reduceCtorEq] at h
    rw [← h]
    exact le_max_right _ _

theorem ensemble_mem_ge (cfg : RecommendationConfig) (st : BasicState)
    (o : EnsembleOracles) (samples : List ℝ) (ts : Option (List ℝ)) (v : ℝ)
    (h : ensembleCalculateMemoryRequest cfg st o samples ts = some v) :
    cfg.minMemoryBytes ≤ v := by
  unfold ensembleCalculateMemoryRequest at h
  split_ifs at h
  · simp only [Option.some.injEq] at h
    exact le_of_eq h
  · rcases hma : movingAverageCalculateMemoryRequest cfg o.tcrit samples ts
        with _ | maP <;>
      simp only [hma, Option.some.injEq, reduceCtorEq] at h
    rw [← h]
    exact le_max_right _ _

/-- C10: for the basic, ensemble, trend-aware, time-aware,
quantile-regression, autoregressive (pmdarima) and seasonal (prophet)
strategies, a missing (`None`) or empty timestamp series makes both
calculations return the configured minimum even for non-empty samples:
the `not cpu_samples or not timestamps` guard treats the two alike. -/
theorem C10_missing_timestamps_yield_min (cfg : RecommendationConfig)
    (st : BasicState) (hourOf dayOf : ℝ → ℤ)
    (qrO : List ℝ → List ℝ → ℝ → Except String ℝ)
    (pmO : List ℝ → List ℝ → Option (ℝ × ℝ))
    (prO : Option (Except String ℝ)) (o : EnsembleOracles)
    (samples : List ℝ) (ts : Option (List ℝ))
    (hne : samples ≠ []) (hts : tsEmpty ts = true) :
    basicCalculateCpuRequest cfg st samples ts = .ok cfg.minCpuCores ∧
    basicCalculateMemoryRequest cfg st samples ts = .ok cfg.minMemoryBytes ∧
    ensembleCalculateCpuRequest cfg st o samples ts = some cfg.minCpuCores ∧
    ensembleCalculateMemoryRequest cfg st o samples ts = some cfg.minMemoryBytes ∧
    trendAwareCalculateCpuRequest cfg samples ts = cfg.minCpuCores ∧
    trendAwareCalculateMemoryRequest cfg samples ts = cfg.minMemoryBytes ∧
    timeAwareCalculateCpuRequest cfg hourOf dayOf samples ts = cfg.minCpuCores ∧
    timeAwareCalculateMemoryRequest cfg hourOf dayOf samples ts = cfg.minMemoryBytes ∧
    quantileRegressionCalculateCpuRequest cfg qrO samples ts = .ok cfg.minCpuCores ∧
    quantileRegressionCalculateMemoryRequest cfg qrO samples ts
      = .ok cfg.minMemoryBytes ∧
    pmdarimaCalculateCpuRequest cfg pmO samples ts = cfg.minCpuCores ∧
    pmdarimaCalculateMemoryRequest cfg pmO samples ts = cfg.minMemoryBytes ∧
    prophetCalculateCpuRequest cfg prO samples ts = cfg.minCpuCores ∧
    prophetCalculateMemoryRequest cfg prO samples ts = cfg.minMemoryBytes := by
  unfold basicCalculateCpuRequest basicCalculateMemoryRequest
    ensembleCalculateCpuRequest ensembleCalculateMemoryRequest
    trendAwareCalculateCpuRequest trendAwareCalculateMemoryRequest
    timeAwareCalculateCpuRequest timeAwareCalculateMemoryRequest
    quantileRegressionCalculateCpuRequest quantileRegressionCalculateMemoryRequest
    pmdarimaCalculateCpuRequest pmdarimaCalculateMemoryRequest
    prophetCalculateCpuRequest prophetCalculateMemoryRequest
  simp [hts]

/-- C10 witness. -/
theorem C10_missing_timestamps_yield_min_witness :
    basicCalculateCpuRequest defaultConfig BasicState.fresh [1] none
        = .ok defaultConfig.minCpuCores ∧
      basicCalculateMemoryRequest defaultConfig BasicState.fresh [1] none
        = .ok defaultConfig.minMemoryBytes :=
  have h := C10_missing_timestamps_yield_min defaultConfig BasicState.fresh
    (fun _ => 0) (fun _ => 0) (fun _ _ _ => .ok 1) (fun _ _ => none) none
    ⟨fun _ => 0, fun _ => 0, fun _ _ _ => .ok 1, fun _ _ => 0, none⟩
    [1] none (by simp) rfl
  ⟨h.1, h.2.1⟩

/-- C9 (amended): every strategy variant returns exactly the configured
minimum on an empty series (for any timestamp argument), and whenever a
call returns a numeric (non-NaN) value that value is at least the
configured minimum and non-negative (the minima being non-negative).  The
original claim fails on single-sample series: the basic strategy raises
`StatisticsError` (`statistics.stdev` on one data point), and the
moving-average strategy — and through it the ensemble, whose `try/except`
only catches exceptions — returns the NaN produced by the ddof=1 rolling
std and `t.ppf(…, df=0)`, modelled here as `none` (see the C9
counterexample). -/
theorem C9_empty_min_and_floor (cfg : RecommendationConfig)
    (st : BasicState) (hourOf dayOf : ℝ → ℤ)
    (qrO : List ℝ → List ℝ → ℝ → Except String ℝ) (tcritO : ℝ → ℝ → ℝ)
    (pmO : List ℝ → List ℝ → Option (ℝ × ℝ))
    (prO : Option (Except String ℝ)) (o : EnsembleOracles)
    (samples : List ℝ) (ts : Option (List ℝ))
    (hcpu : 0 ≤ cfg.minCpuCores) (hmem : 0 ≤ cfg.minMemoryBytes) :
    (basicCalculateCpuRequest cfg st [] ts = .ok cfg.minCpuCores ∧
      basicCalculateMemoryRequest cfg st [] ts = .ok cfg.minMemoryBytes ∧
      timeAwareCalculateCpuRequest cfg hourOf dayOf [] ts = cfg.minCpuCores ∧
      timeAwareCalculateMemoryRequest cfg hourOf dayOf [] ts = cfg.minMemoryBytes ∧
      trendAwareCalculateCpuRequest cfg [] ts = cfg.minCpuCores ∧
      trendAwareCalculateMemoryRequest cfg [] ts = cfg.minMemoryBytes ∧
      workloadAwareCalculateCpuRequest cfg [] ts = cfg.minCpuCores ∧
      workloadAwareCalculateMemoryRequest cfg [] ts = cfg.minMemoryBytes ∧
      adaptiveCalculateCpuRequest cfg [] ts = cfg.minCpuCores ∧
      adaptiveCalculateMemoryRequest cfg [] ts = cfg.minMemoryBytes ∧
      quantileRegressionCalculateCpuRequest cfg qrO [] ts = .ok cfg.minCpuCores ∧
      quantileRegressionCalculateMemoryRequest cfg qrO [] ts
        = .ok cfg.minMemoryBytes ∧
      movingAverageCalculateCpuRequest cfg tcritO [] ts = some cfg.minCpuCores ∧
      movingAverageCalculateMemoryRequest cfg tcritO [] ts
        = some cfg.minMemoryBytes ∧
      pmdarimaCalculateCpuRequest cfg pmO [] ts = cfg.minCpuCores ∧
      pmdarimaCalculateMemoryRequest cfg pmO [] ts = cfg.minMemoryBytes ∧
      prophetCalculateCpuRequest cfg prO [] ts = cfg.minCpuCores ∧
      prophetCalculateMemoryRequest cfg prO [] ts = cfg.minMemoryBytes ∧
      ensembleCalculateCpuRequest cfg st o [] ts = some cfg.minCpuCores ∧
      ensembleCalculateMemoryRequest cfg st o [] ts = some cfg.minMemoryBytes) ∧
    ((∀ v, basicCalculateCpuRequest cfg st samples ts = .ok v →
        cfg.minCpuCores ≤ v ∧ 0 ≤ v) ∧
      (∀ v, basicCalculateMemoryRequest cfg st samples ts = .ok v →
        cfg.minMemoryBytes ≤ v ∧ 0 ≤ v) ∧
      (cfg.minCpuCores ≤ timeAwareCalculateCpuRequest cfg hourOf dayOf samples ts ∧
        0 ≤ timeAwareCalculateCpuRequest cfg hourOf dayOf samples ts) ∧
      (cfg.minMemoryBytes
          ≤ timeAwareCalculateMemoryRequest cfg hourOf dayOf samples ts ∧
        0 ≤ timeAwareCalculateMemoryRequest cfg hourOf dayOf samples ts) ∧
      (cfg.minCpuCores ≤ trendAwareCalculateCpuRequest cfg samples ts ∧
        0 ≤ trendAwareCalculateCpuRequest cfg samples ts) ∧
      (cfg.minMemoryBytes ≤ trendAwareCalculateMemoryRequest cfg samples ts ∧
        0 ≤ trendAwareCalculateMemoryRequest cfg samples ts) ∧
      (cfg.minCpuCores ≤ workloadAwareCalculateCpuRequest cfg samples ts ∧
        0 ≤ workloadAwareCalculateCpuRequest cfg samples ts) ∧
      (cfg.minMemoryBytes ≤ workloadAwareCalculateMemoryRequest cfg samples ts ∧
        0 ≤ workloadAwareCalculateMemoryRequest cfg samples ts) ∧
      (cfg.minCpuCores ≤ adaptiveCalculateCpuRequest cfg samples ts ∧
        0 ≤ adaptiveCalculateCpuRequest cfg samples ts) ∧
      (cfg.minMemoryBytes ≤ adaptiveCalculateMemoryRequest cfg samples ts ∧
        0 ≤ adaptiveCalculateMemoryRequest cfg samples ts) ∧
      (∀ v, quantileRegressionCalculateCpuRequest cfg qrO samples ts = .ok v →
        cfg.minCpuCores ≤ v ∧ 0 ≤ v) ∧
      (∀ v, quantileRegressionCalculateMemoryRequest cfg qrO samples ts = .ok v →
        cfg.minMemoryBytes ≤ v ∧ 0 ≤ v) ∧
      (∀ v, movingAverageCalculateCpuRequest cfg tcritO samples ts = some v →
        cfg.minCpuCores ≤ v ∧ 0 ≤ v) ∧
      (∀ v, movingAverageCalculateMemoryRequest cfg tcritO samples ts = some v →
        cfg.minMemoryBytes ≤ v ∧ 0 ≤ v) ∧
      (cfg.minCpuCores ≤ pmdarimaCalculateCpuRequest cfg pmO samples ts ∧
        0 ≤ pmdarimaCalculateCpuRequest cfg pmO samples ts) ∧
      (cfg.minMemoryBytes ≤ pmdarimaCalculateMemoryRequest cfg pmO samples ts ∧
        0 ≤ pmdarimaCalculateMemoryRequest cfg pmO samples ts) ∧
      (cfg.minCpuCores ≤ prophetCalculateCpuRequest cfg prO samples ts ∧
        0 ≤ prophetCalculateCpuRequest cfg prO samples ts) ∧
      (cfg.minMemoryBytes ≤ prophetCalculateMemoryRequest cfg prO samples ts ∧
        0 ≤ prophetCalculateMemoryRequest cfg prO samples ts) ∧
      (∀ v, ensembleCalculateCpuRequest cfg st o samples ts = some v →
        cfg.minCpuCores ≤ v ∧ 0 ≤ v) ∧
      (∀ v, ensembleCalculateMemoryRequest cfg st o samples ts = some v →
        cfg.minMemoryBytes ≤ v ∧ 0 ≤ v)) := by
  constructor
  · refine ⟨?_, ?_, ?_, ?_, ?_, ?_, ?_, ?_, ?_, ?_, ?_, ?_, ?_, ?_, ?_, ?_, ?_,
      ?_, ?_, ?_⟩ <;>
      simp [basicCalculateCpuRequest, basicCalculateMemoryRequest,
        timeAwareCalculateCpuRequest, timeAwareCalculateMemoryRequest,
        trendAwareCalculateCpuRequest, trendAwareCalculateMemoryRequest,
        workloadAwareCalculateCpuRequest, workloadAwareCalculateMemoryRequest,
        adaptiveCalculateCpuRequest, adaptiveCalculateMemoryRequest,
        quantileRegressionCalculateCpuRequest,
        quantileRegressionCalculateMemoryRequest,
        movingAverageCalculateCpuRequest, movingAverageCalculateMemoryRequest,
        pmdarimaCalculateCpuRequest, pmdarimaCalculateMemoryRequest,
        prophetCalculateCpuRequest, prophetCalculateMemoryRequest,
        ensembleCalculateCpuRequest, ensembleCalculateMemoryRequest]
  · refine ⟨fun v h => ⟨basic_cpu_ge cfg st samples ts v h,
        le_trans hcpu (basic_cpu_ge cfg st samples ts v h)⟩,
      fun v h => ⟨basic_mem_ge cfg st samples ts v h,
        le_trans hmem (basic_mem_ge cfg st samples ts v h)⟩,
      ⟨timeAware_cpu_ge cfg hourOf dayOf samples ts,
        le_trans hcpu (timeAware_cpu_ge cfg hourOf dayOf samples ts)⟩,
      ⟨timeAware_mem_ge cfg hourOf dayOf samples ts,
        le_trans hmem (timeAware_mem_ge cfg hourOf dayOf samples ts)⟩,
      ⟨trendAware_cpu_ge cfg samples ts,
        le_trans hcpu (trendAware_cpu_ge cfg samples ts)⟩,
      ⟨trendAware_mem_ge cfg samples ts,
        le_trans hmem (trendAware_mem_ge cfg samples ts)⟩,
      ⟨workloadAware_cpu_ge cfg samples ts,
        le_trans hcpu (workloadAware_cpu_ge cfg samples ts)⟩,
      ⟨workloadAware_mem_ge cfg samples ts,
        le_trans hmem (workloadAware_mem_ge cfg samples ts)⟩,
      ⟨adaptive_cpu_ge cfg samples ts,
        le_trans hcpu (adaptive_cpu_ge cfg samples ts)⟩,
      ⟨adaptive_mem_ge cfg samples ts,
        le_trans hmem (adaptive_mem_ge cfg samples ts)⟩,
      fun v h => ⟨quantileRegression_cpu_ge cfg qrO samples ts v h,
        le_trans hcpu (quantileRegression_cpu_ge cfg qrO samples ts v h)⟩,
      fun v h => ⟨quantileRegression_mem_ge cfg qrO samples ts v h,
        le_trans hmem (quantileRegression_mem_ge cfg qrO samples ts v h)⟩,
      fun v h => ⟨movingAverage_cpu_ge cfg tcritO samples ts v h,
        le_trans hcpu (movingAverage_cpu_ge cfg tcritO samples ts v h)⟩,
      fun v h => ⟨movingAverage_mem_ge cfg tcritO samples ts v h,
        le_trans hmem (movingAverage_mem_ge cfg tcritO samples ts v h)⟩,
      ⟨pmdarima_cpu_ge cfg pmO samples ts,
        le_trans hcpu (pmdarima_cpu_ge cfg pmO samples ts)⟩,
      ⟨pmdarima_mem_ge cfg pmO samples ts,
        le_trans hmem (pmdarima_mem_ge cfg pmO samples ts)⟩,
      ⟨prophet_cpu_ge cfg prO samples ts,
        le_trans hcpu (prophet_cpu_ge cfg prO samples ts)⟩,
      ⟨prophet_mem_ge cfg prO samples ts,
        le_trans hmem (prophet_mem_ge cfg prO samples ts)⟩,
      fun v h => ⟨ensemble_cpu_ge cfg st o samples ts v h,
        le_trans hcpu (ensemble_cpu_ge cfg st o samples ts v h)⟩,
      fun v h => ⟨ensemble_mem_ge cfg st o samples ts v h,
        le_trans hmem (ensemble_mem_ge cfg st o samples ts v h)⟩⟩

/-- C9 witness. -/
theorem C9_empty_min_and_floor_witness :
    basicCalculateCpuRequest defaultConfig BasicState.fresh [] none
        = .ok defaultConfig.minCpuCores ∧
      defaultConfig.minCpuCores ≤ timeAwareCalculateCpuRequest defaultConfig
        (fun _ => 0) (fun _ => 0) [1] none :=
  have h := C9_empty_min_and_floor defaultConfig BasicState.fresh
    (fun _ => 0) (fun _ => 0) (fun _ _ _ => .ok 1) (fun _ _ => 0)
    (fun _ _ => none) none
    ⟨fun _ => 0, fun _ => 0, fun _ _ _ => .ok 1, fun _ _ => 0, none⟩
    [1] none (by norm_num [defaultConfig]) (by norm_num [defaultConfig])
  ⟨h.1.1, h.2.2.2.1.1⟩

/-! ### Fit-failure handling (C5) -/

/-- C5 counterexample: a fit failure inside the quantile-regression
strategy propagates out of `calculate_cpu_request` — the method has no
`try/except` — contradicting the claim that no fit/predict exception ever
escapes it. -/
theorem C5_counterexample :
    quantileRegressionCalculateCpuRequest defaultConfig
        (fun _ _ _ => .error "fit failed") [1] (some [1])
      = .error "fit failed" := by
  norm_num [quantileRegressionCalculateCpuRequest, tsEmpty, Bind.bind,
    Except.bind]

/-- C5 (amended): the autoregressive (pmdarima) strategy contains the
failure — a fit/predict breakdown is caught and replaced by the
percentile (CPU) / peak (memory) fallback — while the quantile-regression
strategy has no handler, so a fit/predict exception propagates out of both
of its calculation methods. -/
theorem C5_fit_failure_handling (cfg : RecommendationConfig)
    (qrO : List ℝ → List ℝ → ℝ → Except String ℝ)
    (pmO : List ℝ → List ℝ → Option (ℝ × ℝ))
    (samples : List ℝ) (ts : Option (List ℝ)) (e : String)
    (hne : samples.isEmpty = false) (hts : tsEmpty ts = false)
    (hqr50 : qrO (ts.getD []) samples 0.50 = .error e)
    (hqr75 : qrO (ts.getD []) samples 0.75 = .error e)
    (hpm : pmO samples (ts.getD []) = none) :
    quantileRegressionCalculateCpuRequest cfg qrO samples ts = .error e ∧
    quantileRegressionCalculateMemoryRequest cfg qrO samples ts = .error e ∧
    pmdarimaCalculateCpuRequest cfg pmO samples ts
      = max (npPercentile samples 95 * 1.1) cfg.minCpuCores ∧
    pmdarimaCalculateMemoryRequest cfg pmO samples ts
      = max (pyListMax samples * cfg.memoryBuffer) cfg.minMemoryBytes := by
  refine ⟨?_, ?_, ?_, ?_⟩
  · unfold quantileRegressionCalculateCpuRequest
    simp [hne, hts, hqr50, Bind.bind, Except.bind]
  · unfold quantileRegressionCalculateMemoryRequest
    simp [hne, hts, hqr75, Bind.bind, Except.bind]
  · unfold pmdarimaCalculateCpuRequest
    simp [hne, hts, hpm]
  · unfold pmdarimaCalculateMemoryRequest
    simp [hne, hts, hpm]

/-- C5 witness. -/
theorem C5_fit_failure_handling_witness :
    quantileRegressionCalculateCpuRequest defaultConfig
        (fun _ _ _ => .error "boom") [2] (some [3]) = .error "boom" ∧
      quantileRegressionCalculateMemoryRequest defaultConfig
        (fun _ _ _ => .error "boom") [2] (some [3]) = .error "boom" ∧
      pmdarimaCalculateCpuRequest defaultConfig (fun _ _ => none) [2] (some [3])
        = max (npPercentile [2] 95 * 1.1) defaultConfig.minCpuCores ∧
      pmdarimaCalculateMemoryRequest defaultConfig (fun _ _ => none) [2] (some [3])
        = max (pyListMax [2] * defaultConfig.memoryBuffer)
          defaultConfig.minMemoryBytes :=
  C5_fit_failure_handling defaultConfig (fun _ _ _ => .error "boom")
    (fun _ _ => none) [2] (some [3]) "boom" rfl rfl rfl rfl rfl

/-! ### Constant-series evaluation of the basic strategy (C3) -/

theorem zip_replicate {α β : Type} (a : α) (b : β) :
    ∀ n, (List.replicate n a).zip (List.replicate n b) = List.replicate n (a, b) := by
  intro n
  induction n with
  | zero => rfl
  | succ n ih => simp [List.replicate_succ, ih]

theorem pyMean_replicate (n : ℕ) (c : ℝ) (hn : n ≠ 0) :
    pyMean (List.replicate n c) = c := by
  unfold pyMean
  rw [List.sum_replicate, List.length_replicate, nsmul_eq_mul]
  exact mul_div_cancel_left₀ c (Nat.cast_ne_zero.mpr hn)

theorem pyStdev_replicate (n : ℕ) (c : ℝ) (hn : n ≠ 0) :
    pyStdev (List.replicate n c) = 0 := by
  unfold pyStdev
  rw [pyMean_replicate n c hn, List.map_replicate]
  norm_num [List.sum_replicate]

theorem lastN_replicate {α : Type} (k n : ℕ) (c : α) :
    lastN k (List.replicate n c) = List.replicate (min k n) c := by
  unfold lastN
  rw [List.length_replicate, List.drop_replicate]
  congr 1
  omega

theorem getLast?_cons_replicate (a b : Sample) (n : ℕ) :
    (a :: List.replicate n b).getLast? = some (if n = 0 then a else b) := by
  cases n with
  | zero => simp
  | succ n =>
    rw [List.replicate_succ',
      show a :: (List.replicate n b ++ [b]) = (a :: List.replicate n b) ++ [b] by
        simp,
      List.getLast?_concat]
    simp

theorem constHistState_values (k : ℕ) :
    (constHistState k).samples.map Sample.value = List.replicate k 0.05 := by
  cases k with
  | zero => simp [constHistState]
  | succ k => simp [constHistState, List.map_replicate, List.replicate_succ]

theorem constHistState_length (k : ℕ) :
    (constHistState k).samples.length = k := by
  cases k with
  | zero => simp [constHistState]
  | succ k => simp [constHistState]

theorem constHistState_volatility (k : ℕ) :
    calculateVolatility (constHistState (k + 1)) = 0 := by
  unfold calculateVolatility
  rcases Nat.eq_zero_or_pos k with rfl | hkpos
  · rw [if_pos (by rw [constHistState_length]; omega)]
    norm_num
  · rw [if_neg (by rw [constHistState_length]; omega)]
    dsimp only
    rw [constHistState_values, lastN_replicate]
    have hmin : min 100 (k + 1) ≠ 0 := by omega
    rw [if_neg (by rw [List.length_replicate]; omega),
      if_pos (by rw [pyMean_replicate _ _ hmin]; norm_num),
      pyMean_replicate _ _ hmin, pyStdev_replicate _ _ hmin]
    norm_num

theorem constHistState_decay (k : ℕ) :
    updateDecayRate (constHistState (k + 1)) = 0.01 := by
  unfold updateDecayRate
  rw [constHistState_volatility]
  norm_num

theorem constHistState_importance (k : ℕ) :
    calculateImportance (constHistState (k + 1)) 0.05 0 = 0.1 := by
  unfold calculateImportance
  rw [if_neg (by simp [constHistState])]
  dsimp only
  rw [constHistState_values, lastN_replicate]
  have hmin : min 10 (k + 1) ≠ 0 := by omega
  rw [if_neg (by simp [List.isEmpty_iff, List.replicate_eq_nil_iff] <;> omega),
    pyMean_replicate _ _ hmin]
  norm_num

theorem constHistState_weight (k : ℕ) (d : ℝ) :
    newSampleWeight (constHistState (k + 1)) d 0 = 1 := by
  unfold newSampleWeight
  have : (constHistState (k + 1)).samples.getLast? =
      some (if k = 0 then (⟨0.05, 0, 1, 1⟩ : Sample) else ⟨0.05, 0, 1, 0.1⟩) := by
    rw [show (constHistState (k + 1)).samples
        = ⟨0.05, 0, 1, 1⟩ :: List.replicate k ⟨0.05, 0, 1, 0.1⟩ by
      simp [constHistState]]
    exact getLast?_cons_replicate _ _ k
  rw [this]
  split_ifs <;> norm_num [Real.exp_zero]

theorem addSample_const_step (k : ℕ) (hk : k < 1000) :
    addSample (constHistState k) 0.05 0 = constHistState (k + 1) := by
  cases k with
  | zero =>
    norm_num [constHistState, addSample, updateDecayRate, calculateVolatility,
      calculateImportance, newSampleWeight, dequeAppend]
  | succ k =>
    unfold addSample
    dsimp only
    have hlen := constHistState_length (k + 1)
    have hmax : (constHistState (k + 1)).maxSamples = 1000 := by
      simp [constHistState]
    have happ : dequeAppend (constHistState (k + 1)).maxSamples
        (constHistState (k + 1)).samples
        ⟨0.05, 0, newSampleWeight (constHistState (k + 1))
          (updateDecayRate (constHistState (k + 1))) 0,
          calculateImportance (constHistState (k + 1)) 0.05 0⟩
        = ⟨0.05, 0, 1, 1⟩ :: List.replicate (k + 1) ⟨0.05, 0, 1, 0.1⟩ := by
      rw [constHistState_weight, constHistState_importance]
      unfold dequeAppend
      rw [if_pos (by rw [hlen, hmax]; omega)]
      rw [show (constHistState (k + 1)).samples
          = ⟨0.05, 0, 1, 1⟩ :: List.replicate k ⟨0.05, 0, 1, 0.1⟩ by
        simp [constHistState]]
      rw [List.cons_append, ← List.replicate_succ']
    rw [happ]
    rw [if_neg (by rw [hmax]; simp; omega)]
    rw [constHistState_decay, hmax]
    simp [constHistState]

theorem addSamples_const (m : ℕ) :
    ∀ k, k + m ≤ 1000 →
      addSamples (constHistState k) (List.replicate m ((0.05 : ℝ), (0 : ℝ)))
        = constHistState (k + m) := by
  induction m with
  | zero => intro k _; simp [addSamples]
  | succ m ih =>
    intro k hk
    rw [List.replicate_succ]
    show addSamples (addSample (constHistState k) 0.05 0)
      (List.replicate m ((0.05 : ℝ), (0 : ℝ))) = constHistState (k + (m + 1))
    rw [addSample_const_step k (by omega), ih (k + 1) (by omega)]
    congr 1
    omega

theorem getWeights_length (samples : List Sample) :
    (getWeights samples).length = samples.length := by
  unfold getWeights
  dsimp only
  split_ifs <;> simp

theorem quantileCore_const (values cw : List ℝ) (c q : ℝ) (hvne : values ≠ [])
    (hall : ∀ x ∈ values, x = c) (hlen : cw.length = values.length) :
    quantileCore values cw q = c := by
  have hnpos : 0 < values.length := List.length_pos.mpr hvne
  have hgetD : ∀ i, i < values.length → values.getD i 0 = c := by
    intro i hi
    rw [List.getD_eq_getElem _ _ hi]
    exact hall _ (List.getElem_mem hi)
  have hidx_le : searchsortedLeft cw q ≤ values.length := by
    have := searchsortedLeft_le_length cw q
    omega
  unfold quantileCore
  dsimp only
  split_ifs with h1 h2 h3
  · exact hgetD 0 hnpos
  · exact hgetD _ (by omega)
  · exact hgetD _ (by omega)
  · rw [hgetD _ (by omega), hgetD _ (by omega)]
    ring

theorem getQuantile_const (samples : List Sample) (c q : ℝ) (hne : samples ≠ [])
    (hall : ∀ s ∈ samples, s.value = c) : getQuantile samples q = c := by
  unfold getQuantile
  rw [if_neg (by simpa [List.isEmpty_iff] using hne)]
  dsimp only
  have hglen : (getWeights samples).length = samples.length :=
    getWeights_length samples
  have hvlen : (samples.map Sample.value).length = samples.length := by simp
  have hzip_fst :=
    List.map_fst_zip (samples.map Sample.value) (getWeights samples) (by omega)
  have hfst_perm : ((sortedValueWeights samples).map Prod.fst).Perm
      (samples.map Sample.value) := by
    have := (svw_perm samples).map Prod.fst
    rwa [hzip_fst] at this
  apply quantileCore_const
  · intro h
    have hl := hfst_perm.length_eq
    rw [h] at hl
    simp only [List.length_nil, List.length_map] at hl
    exact hne (List.length_eq_zero.mp hl.symm)
  · intro x hx
    obtain ⟨s, hs, rfl⟩ := List.mem_map.mp (hfst_perm.mem_iff.mp hx)
    exact hall s hs
  · rw [cumsum_length]
    simp

theorem constHistState_confidence :
    basicConfidenceFactor (constHistState 10).maxSamples
      (constHistState 10).samples = .ok 1.05 := by
  have hmax : (constHistState 10).maxSamples = 1000 := by simp [constHistState]
  have himps : (constHistState 10).samples.map Sample.importance
      = 1 :: List.replicate 9 0.1 := by
    simp [constHistState]
  have hlen : (constHistState 10).samples.length = 10 := constHistState_length 10
  unfold basicConfidenceFactor basicDataQuality
  rw [if_neg (by simp [constHistState]), if_neg (by simp [constHistState])]
  dsimp only
  rw [constHistState_values]
  rw [if_pos (by rw [pyMean_replicate 10 _ (by norm_num)]; norm_num)]
  rw [show pyStdevE (List.replicate 10 (0.05 : ℝ)) = .ok 0 by
    unfold pyStdevE
    rw [if_neg (by simp), pyStdev_replicate 10 _ (by norm_num)]]
  rw [pyMean_replicate 10 _ (by norm_num), himps, hmax, hlen]
  simp only [Except.map]
  rw [show pyMean (1 :: List.replicate 9 (0.1 : ℝ)) = 0.19 by
    unfold pyMean
    simp [List.sum_replicate, nsmul_eq_mul]
    norm_num]
  norm_num [max_def, min_def]

/-- Evaluation of the basic strategy on 10 constant samples of 0.05 cores
with timestamps: the result is 0.05 × 1.05 = 0.0525. -/
theorem basicConstSeries_eval :
    basicCalculateCpuRequest defaultConfig BasicState.fresh
        (List.replicate 10 0.05) (some (List.replicate 10 0)) = .ok 0.0525 := by
  unfold basicCalculateCpuRequest
  rw [if_neg (by
    norm_num [tsEmpty, List.isEmpty_iff, List.replicate_eq_nil_iff])]
  dsimp only
  rw [show (List.replicate 10 (0.05 : ℝ)).zip
      ((some (List.replicate 10 (0 : ℝ))).getD []) =
      List.replicate 10 ((0.05 : ℝ), (0 : ℝ)) by
    simp [zip_replicate]]
  rw [show BasicState.fresh.cpuHistogram = constHistState 0 by
    simp [BasicState.fresh, DecayingHistogram.init, constHistState]]
  rw [addSamples_const 10 0 (by norm_num)]
  have hq : ∀ q, getQuantile (constHistState 10).samples q = 0.05 := by
    intro q
    refine getQuantile_const _ _ q (by simp [constHistState]) ?_
    intro s hs
    have hmem : s.value ∈ (constHistState 10).samples.map Sample.value :=
      List.mem_map_of_mem _ hs
    rw [constHistState_values] at hmem
    exact List.eq_of_mem_replicate hmem
  simp only [hq]
  rw [show (0 : ℕ) + 10 = 10 by norm_num, constHistState_confidence]
  simp only [Except.map]
  norm_num [max_def, defaultConfig]

/-- C3 counterexample: on 10 samples of 0.05 cores (with timestamps) the
basic strategy returns 0.0525 — p95 times the 1.05 confidence factor — not
the claimed p95 × 1.10 = 0.055. -/
theorem C3_counterexample :
    basicCalculateCpuRequest defaultConfig BasicState.fresh
        (List.replicate 10 0.05) (some (List.replicate 10 0)) = .ok 0.0525 ∧
      (0.0525 : ℝ) ≠ 0.055 :=
  ⟨basicConstSeries_eval, by norm_num⟩

/-- C3 (amended): the basic strategy returns the weighted-histogram p95
(or p90 when p95 exceeds 1.5 × p90) times a data-quality confidence factor
that lies in [1.05, 1.0925] for every non-empty history — not a fixed
1.10 — clamped below by min_cpu_cores; on 10 samples of 0.05 cores it
returns 0.05 × 1.05 = 0.0525 cores. -/
theorem C3_basic_confidence_factor :
    (basicCalculateCpuRequest defaultConfig BasicState.fresh
        (List.replicate 10 0.05) (some (List.replicate 10 0)) = .ok 0.0525) ∧
    (∀ (chm : ℕ) (samples : List Sample) (c : ℝ), samples ≠ [] →
      basicConfidenceFactor chm samples = .ok c → 1.05 ≤ c ∧ c ≤ 1.0925) := by
  constructor
  · exact basicConstSeries_eval
  · intro chm samples c hne h
    unfold basicConfidenceFactor at h
    rw [if_neg (by simpa [List.isEmpty_iff] using hne)] at h
    cases hdq : basicDataQuality chm samples with
    | error e => rw [hdq] at h; simp [Except.map] at h
    | ok q =>
      rw [hdq] at h
      simp only [Except.map, Except.ok.injEq] at h
      have hqb : 0.1 ≤ q ∧ q ≤ 1 := by
        unfold basicDataQuality at hdq
        rw [if_neg (by simpa [List.isEmpty_iff] using hne)] at hdq
        dsimp only at hdq
        cases hv : (if 0 < pyMean (samples.map Sample.value) then
            (pyStdevE (samples.map Sample.value)).map
              (· / pyMean (samples.map Sample.value))
          else .ok 0.0) with
        | error e => rw [hv] at hdq; simp [Except.map] at hdq
        | ok vol =>
          rw [hv] at hdq
          simp only [Except.map, Except.ok.injEq] at hdq
          rw [← hdq]
          exact ⟨le_max_left _ _,
            max_le (by norm_num) (le_trans (min_le_left _ _) (by norm_num))⟩
      refine ⟨by rw [← h]; exact le_max_left _ _, ?_⟩
      rw [← h]
      refine max_le (by norm_num) ?_
      nlinarith [hqb.1]

/-- C3 witness. -/
theorem C3_basic_confidence_factor_witness :
    basicCalculateCpuRequest defaultConfig BasicState.fresh
        (List.replicate 10 0.05) (some (List.replicate 10 0)) = .ok 0.0525 ∧
      (1.05 ≤ (1.05 : ℝ) ∧ (1.05 : ℝ) ≤ 1.0925) := by
  have hconf2 : basicConfidenceFactor 1000
      [⟨1, 0, 1, 1⟩, ⟨1, 0, 1, 1⟩] = .ok 1.05 := by
    unfold basicConfidenceFactor basicDataQuality
    rw [if_neg (by simp), if_neg (by simp)]
    dsimp only
    rw [if_pos (by norm_num [pyMean])]
    rw [show pyStdevE (List.map Sample.value
        [(⟨1, 0, 1, 1⟩ : Sample), ⟨1, 0, 1, 1⟩]) = .ok 0 by
      unfold pyStdevE
      rw [if_neg (by simp)]
      norm_num [pyStdev, pyMean, Real.sqrt_zero]]
    simp only [Except.map]
    norm_num [pyMean, max_def, min_def]
  exact ⟨C3_basic_confidence_factor.1,
    C3_basic_confidence_factor.2 1000 [⟨1, 0, 1, 1⟩, ⟨1, 0, 1, 1⟩] 1.05
      (by simp) hconf2⟩

/-- C9 counterexample: on the non-empty single-sample series `[0.05]`,
(1) the basic strategy does not return a value at all — its data-quality
step calls `statistics.stdev` on one data point, which raises
`StatisticsError`; (2) the moving-average strategy returns NaN (`none`):
the ddof=1 rolling std over one observation and `t.ppf(…, df=0)` are NaN
and `max` propagates it; (3) the ensemble returns the same NaN, since a
NaN is not an exception and its per-member `try/except` does not replace
it.  So "for every non-empty input the returned value is ≥ the configured
minimum" fails as stated. -/
theorem C9_counterexample :
    basicCalculateCpuRequest defaultConfig BasicState.fresh [0.05] (some [0])
        = .error "stdev requires at least two data points" ∧
      movingAverageCalculateCpuRequest defaultConfig (fun _ _ => 0) [0.05]
        (some [0]) = none ∧
      ensembleCalculateCpuRequest defaultConfig BasicState.fresh
        ⟨fun _ => 0, fun _ => 0, fun _ _ _ => .ok 1, fun _ _ => 0, none⟩
        [0.05] (some [0]) = none := by
  have hma : movingAverageCalculateCpuRequest defaultConfig (fun _ _ => 0)
      [0.05] (some [0]) = none := by
    unfold movingAverageCalculateCpuRequest predictionInterval
    norm_num
  refine ⟨?_, hma, ?_⟩
  case refine_2 =>
    simp only [ensembleCalculateCpuRequest, tsEmpty]
    rw [if_neg (by norm_num)]
    rw [hma]
  unfold basicCalculateCpuRequest
  rw [if_neg (by norm_num [tsEmpty])]
  dsimp only
  have hstep : addSamples BasicState.fresh.cpuHistogram
      (([0.05] : List ℝ).zip (((some [0] : Option (List ℝ))).getD []))
      = constHistState 1 := by
    have h0 : BasicState.fresh.cpuHistogram = constHistState 0 := by
      simp [BasicState.fresh, DecayingHistogram.init, constHistState]
    rw [h0]
    show addSamples (constHistState 0) [(0.05, 0)] = constHistState 1
    simp [addSamples, addSample_const_step 0 (by norm_num)]
  rw [hstep]
  have hconf : basicConfidenceFactor (constHistState 1).maxSamples
      (constHistState 1).samples
      = .error "stdev requires at least two data points" := by
    rw [show (constHistState 1).samples = [⟨0.05, 0, 1, 1⟩] by
      simp [constHistState]]
    unfold basicConfidenceFactor basicDataQuality
    rw [if_neg (by simp), if_neg (by simp)]
    dsimp only
    rw [if_pos (by norm_num [pyMean])]
    norm_num [pyStdevE, Except.map]
  rw [hconf]
  rfl

/-- C7 witness. -/
theorem C7_quantile_monotone_min_max_witness :
    (∀ q q', q ≤ q' →
      getQuantile (addSamples (DecayingHistogram.init 1000 0.1) [(5, 0)]).samples q ≤
      getQuantile (addSamples (DecayingHistogram.init 1000 0.1) [(5, 0)]).samples q') ∧
    (getQuantile (addSamples (DecayingHistogram.init 1000 0.1) [(5, 0)]).samples 0 ∈
        (addSamples (DecayingHistogram.init 1000 0.1) [(5, 0)]).samples.map Sample.value ∧
      ∀ v ∈ (addSamples (DecayingHistogram.init 1000 0.1) [(5, 0)]).samples.map Sample.value,
        getQuantile (addSamples (DecayingHistogram.init 1000 0.1) [(5, 0)]).samples 0 ≤ v) ∧
    (getQuantile (addSamples (DecayingHistogram.init 1000 0.1) [(5, 0)]).samples 1 ∈
        (addSamples (DecayingHistogram.init 1000 0.1) [(5, 0)]).samples.map Sample.value ∧
      ∀ v ∈ (addSamples (DecayingHistogram.init 1000 0.1) [(5, 0)]).samples.map Sample.value,
        v ≤ getQuantile (addSamples (DecayingHistogram.init 1000 0.1) [(5, 0)]).samples 1) := by
  refine C7_quantile_monotone_min_max _ ⟨1000, 0.1, [(5, 0)], rfl⟩ ?_
  have e1 : addSample (DecayingHistogram.init 1000 0.1) 5 0 =
      ⟨1000, 0.01, [⟨5, 0, 1, 1⟩]⟩ := by
    unfold addSample updateDecayRate calculateVolatility calculateImportance
      newSampleWeight dequeAppend DecayingHistogram.init
    norm_num
  simp [addSamples, e1]

end KRR
